import Mathlib

/-!
Verification of the ZenFS zone manager (`fs/zbd_zenfs.cc`) against its
natural-language specification.  The C++ source is shallowly embedded:
each method becomes a pure Lean function over explicit state, the
backend (`ZonedBlockDeviceBackend`) becomes an oracle of outcomes, the
condition-variable waits become guarded `Option` transitions (`none`
models a call that blocks forever or runs into undefined behaviour in
the source, such as an out-of-range `std::vector` index or a null
dereference), and the machine integers become `Nat`/`Int` (the counters
are `std::atomic<long>`, hence `Int`; the zone geometry fields are
`uint64_t` device byte offsets, far below `2 ^ 64`, and the only
subtractions performed on them are guarded by the surrounding code, so
no wrap-around arises on the modelled paths).
-/

/-- The `IOStatus` values produced by the zone manager
(`rocksdb/io_status.h`): `ok`, `NoSpace`, `IOError` (carrying the
backend `errno`), `Corruption`, `NotSupported`, `InvalidArgument`. -/
inductive IOStat where
  | ok
  | noSpace
  | ioError (e : Nat)
  | corruption
  | notSupported
  | invalidArgument
  deriving DecidableEq, Repr

/-- `Env::WriteLifeTimeHint` numeric values (`rocksdb/env.h`):
`WLTH_NOT_SET = 0`. -/
def WLTH_NOT_SET : Nat := 0

/-- `WLTH_NONE = 1`. -/
def WLTH_NONE : Nat := 1

/-- `WLTH_SHORT = 2`. -/
def WLTH_SHORT : Nat := 2

/-- `WLTH_MEDIUM = 3`. -/
def WLTH_MEDIUM : Nat := 3

/-- The `IOType` values relevant to the allocator: only the distinction
`kWAL` versus everything else matters in `AllocateIOZone`. -/
inductive IOType where
  | kWAL
  | kFlush
  | kCompaction
  | kOther
  deriving DecidableEq, Repr

/-- Per-zone state of `class Zone` (`zbd_zenfs.cc` lines 52-65):
`start_`, `max_capacity_`, `capacity_`, `wp_`, `used_capacity_`,
`lifetime_` (a `WriteLifeTimeHint`, `0` meaning `WLTH_NOT_SET`),
the atomic `busy_` flag and the `useinlevelzone_` lease flag. -/
structure Zone where
  start : Nat
  maxCapacity : Nat
  capacity : Nat
  wp : Nat
  usedCapacity : Nat
  lifetime : Nat
  busy : Bool
  useInLevelZone : Bool
  deriving DecidableEq, Repr

/-- `Zone::IsUsed()` (line 67): `used_capacity_ > 0`. -/
def Zone.IsUsed (z : Zone) : Bool := decide (0 < z.usedCapacity)

/-- `Zone::IsFull()` (line 69): `capacity_ == 0`. -/
def Zone.IsFull (z : Zone) : Bool := decide (z.capacity = 0)

/-- `Zone::IsEmpty()` (line 70): `wp_ == start_`. -/
def Zone.IsEmpty (z : Zone) : Bool := decide (z.wp = z.start)

/-- `Zone::Reset()` (lines 84-103).  The backend call
`zbd_be_->Reset(start_, &offline, &max_capacity)` is passed in as its
outcome triple: a status, the `offline` flag and the reported new
`max_capacity`.  On a non-ok status the method returns it at once,
leaving every field as it was; on success an offline zone gets
`capacity_ = 0` while an online zone gets
`max_capacity_ = capacity_ = max_capacity`, and in both cases
`wp_ = start_` and `lifetime_ = WLTH_NOT_SET`. -/
def Zone.Reset (z : Zone) (ios : IOStat) (offline : Bool) (maxCapacity : Nat) :
    IOStat × Zone :=
  if ios ≠ IOStat.ok then (ios, z)
  else
    let z1 := if offline then { z with capacity := 0 }
              else { z with maxCapacity := maxCapacity, capacity := maxCapacity }
    (IOStat.ok, { z1 with wp := z.start, lifetime := WLTH_NOT_SET })

/-- `Zone::Finish()` (lines 105-116).  The backend call
`zbd_be_->Finish(start_)` is passed in as its status.  On failure the
status is returned with the zone untouched; on success `capacity_ = 0`
and `wp_ = start_ + zbd_->GetZoneSize()`. -/
def Zone.Finish (z : Zone) (zoneSize : Nat) (ios : IOStat) : IOStat × Zone :=
  if ios ≠ IOStat.ok then (ios, z)
  else (IOStat.ok, { z with capacity := 0, wp := z.start + zoneSize })

/-- One backend `Write` outcome observed by `Zone::Append`'s loop: a
non-negative byte count, or a negative return with the thread `errno`. -/
inductive WriteRes where
  | ok (n : Nat)
  | err (e : Nat)
  deriving DecidableEq, Repr

/-- The `while (left)` loop of `Zone::Append` (lines 142-153) over the
trace of backend `Write` outcomes.  Arguments: remaining trace, `left`,
`wp_`, `capacity_`.  Each iteration issues one `Write`; a negative
return yields `IOError` with the fields as the device left them; a
successful write of `n` bytes advances `wp_` by `n` and shrinks
`capacity_` and `left` by `n`.  `none` models a run whose trace is
exhausted before the loop ends (the loop would keep issuing writes).
Per the backend contract (§4.1 of the spec) a write never reports more
bytes than requested, so the `uint32_t`/`uint64_t` subtractions cannot
wrap on traces satisfying `validWrites`. -/
def appendLoop : List WriteRes → Nat → Nat → Nat → Option (IOStat × Nat × Nat)
  | _, 0, wp, cap => some (IOStat.ok, wp, cap)
  | [], _ + 1, _, _ => none
  | WriteRes.err e :: _, _ + 1, wp, cap => some (IOStat.ioError e, wp, cap)
  | WriteRes.ok n :: rest, l + 1, wp, cap =>
      appendLoop rest (l + 1 - n) (wp + n) (cap - n)

/-- The backend contract for a write trace: while bytes remain, a
successful write reports at most the requested `left` bytes
(short writes are allowed, over-reporting is not). -/
def validWrites : Nat → List WriteRes → Bool
  | 0, _ => true
  | _ + 1, [] => true
  | l + 1, WriteRes.ok n :: rest => decide (n ≤ l + 1) && validWrites (l + 1 - n) rest
  | _ + 1, WriteRes.err _ :: _ => true

/-- `Zone::Append(data, size)` (lines 129-156).  If `capacity_ < size`
it returns `NoSpace` before any backend call; otherwise it runs the
write loop.  The metrics calls do not touch zone state and are not
modelled. -/
def Zone.Append (z : Zone) (size : Nat) (ws : List WriteRes) :
    Option (IOStat × Zone) :=
  if z.capacity < size then some (IOStat.noSpace, z)
  else (appendLoop ws size z.wp z.capacity).map
    (fun r => (r.1, { z with wp := r.2.1, capacity := r.2.2 }))

/-- `ZonedBlockDevice::SetZoneDeferredStatus(status)` (lines 1106-1111)
as a function of the latched value: the latch is overwritten only when
the currently latched status is already non-ok
(`if (!zone_deferred_status_.ok()) zone_deferred_status_ = status`). -/
def SetZoneDeferredStatus (cur status : IOStat) : IOStat :=
  if cur ≠ IOStat.ok then status else cur

/-- `ZonedBlockDevice::GetZoneDeferredStatus()` (lines 1101-1104):
returns the latched status. -/
def GetZoneDeferredStatus (cur : IOStat) : IOStat := cur

/-- The per-call outcomes of the `ZonedBlockDeviceBackend` adapter,
keyed by the zone `start_` offset the source passes to it:
`Finish(start)` yields a status, `Reset(start)` yields a status plus
the `offline` flag and new `max_capacity`. -/
structure ZonedBlockDeviceBackend where
  finishRes : Nat → IOStat
  resetRes : Nat → IOStat × Bool × Nat

/-- The configuration the manager fixes at `Open` and never mutates:
the open/active caps (`max_nr_open_io_zones_`, `max_nr_active_io_zones_`,
both `long`), the lifetime window `lifetime_begin_` / `diff_level_num_`,
the `finish_threshold_` percentage, and the backend zone size. -/
structure ZbdConfig where
  maxNrOpenIOZones : Int
  maxNrActiveIOZones : Int
  lifetimeBegin : Nat
  diffLevelNum : Nat
  finishThreshold : Nat
  zoneSize : Nat
  deriving DecidableEq, Repr

/-- The mutable state of `class ZonedBlockDevice`: the I/O zone
registry `io_zones` (zones are identified by their unique `start_`
offset), the lifetime buckets `level_zones` (sets of zones, here lists
of `start_` offsets), the idle counters `level_active_io_zones_`, and
the token counters `open_io_zones_` / `active_io_zones_`. -/
structure ZonedBlockDevice where
  ioZones : List Zone
  levelZones : List (List Nat)
  levelActiveIOZones : List Int
  openIOZones : Int
  activeIOZones : Int
  deriving DecidableEq, Repr

/-- Look up the zone with the given `start_` offset in the registry. -/
def ZonedBlockDevice.getZone (st : ZonedBlockDevice) (s : Nat) : Option Zone :=
  st.ioZones.find? (fun z => z.start == s)

/-- Store an updated zone record back into the registry (the C++ code
mutates the `Zone` object in place; `start_` is never changed). -/
def ZonedBlockDevice.setZone (st : ZonedBlockDevice) (z' : Zone) : ZonedBlockDevice :=
  { st with ioZones := st.ioZones.map (fun w => if w.start == z'.start then z' else w) }

/-- Replace the contents of bucket `i` of `level_zones`. -/
def ZonedBlockDevice.setBucket (st : ZonedBlockDevice) (i : Nat) (b : List Nat) :
    ZonedBlockDevice :=
  { st with levelZones := st.levelZones.set i b }

/-- Replace entry `i` of `level_active_io_zones_`. -/
def ZonedBlockDevice.setLevelActive (st : ZonedBlockDevice) (i : Nat) (v : Int) :
    ZonedBlockDevice :=
  { st with levelActiveIOZones := st.levelActiveIOZones.set i v }

/-- `ZonedBlockDevice::WaitForOpenIOZoneToken(prioritized)`
(lines 538-561).  The limit is the full cap for prioritized callers and
the cap minus one otherwise; the condition-variable wait admits the
caller as soon as `open_io_zones_` is below the limit and increments it
under the same lock.  `none` models a caller blocked forever. -/
def ZonedBlockDevice.WaitForOpenIOZoneToken (cfg : ZbdConfig)
    (st : ZonedBlockDevice) (prioritized : Bool) : Option ZonedBlockDevice :=
  let allocatorOpenLimit : Int :=
    if prioritized then cfg.maxNrOpenIOZones else cfg.maxNrOpenIOZones - 1
  if st.openIOZones < allocatorOpenLimit then
    some { st with openIOZones := st.openIOZones + 1 }
  else none

/-- `ZonedBlockDevice::GetActiveIOZoneTokenIfAvailable()`
(lines 563-574): non-blocking; increments `active_io_zones_` and
returns `true` exactly when it is below the cap. -/
def ZonedBlockDevice.GetActiveIOZoneTokenIfAvailable (cfg : ZbdConfig)
    (st : ZonedBlockDevice) : Bool × ZonedBlockDevice :=
  if st.activeIOZones < cfg.maxNrActiveIOZones then
    (true, { st with activeIOZones := st.activeIOZones + 1 })
  else (false, st)

/-- `ZonedBlockDevice::PutOpenIOZoneToken()` (lines 576-582). -/
def ZonedBlockDevice.PutOpenIOZoneToken (st : ZonedBlockDevice) : ZonedBlockDevice :=
  { st with openIOZones := st.openIOZones - 1 }

/-- `ZonedBlockDevice::PutActiveIOZoneToken()` (lines 584-590). -/
def ZonedBlockDevice.PutActiveIOZoneToken (st : ZonedBlockDevice) : ZonedBlockDevice :=
  { st with activeIOZones := st.activeIOZones - 1 }

/-- `ZonedBlockDevice::AllocateEmptyZone(&zone_out)` (lines 749-765):
linear scan of `io_zones` for the first zone that can be acquired
(`busy_` clear) and is empty; zones acquired and found non-empty are
released again, a no-op on their state.  Returns the found zone record
(still with `busy_` clear; callers set it via the successful
`Acquire`). -/
def ZonedBlockDevice.AllocateEmptyZone (zones : List Zone) : Option Zone :=
  zones.find? (fun z => !z.busy && z.IsEmpty)

/-- The eligibility test of `ZonedBlockDevice::ApplyFinishThreshold`
(lines 599-601) for an acquired zone: not empty, not full, and
`capacity_ < max_capacity_ * finish_threshold_ / 100` (`uint64_t`
arithmetic, hence the explicit `% 2 ^ 64`). -/
def finishPred (threshold : Nat) (z : Zone) : Bool :=
  !z.busy && !(z.IsEmpty || z.IsFull) &&
    decide (z.capacity < z.maxCapacity * threshold % 2 ^ 64 / 100)

/-- The `io_zones` traversal of `ApplyFinishThreshold` (lines 597-619):
busy zones are skipped; an acquired, eligible zone is finished via the
backend and, on success, released and one active token returned
(`PutActiveIOZoneToken`); on a backend finish error the zone is
released untouched and the status returned at once; acquired
non-eligible zones are released untouched. -/
def applyFinishThresholdGo (be : ZonedBlockDeviceBackend) (zoneSize threshold : Nat) :
    List Zone → Int → IOStat × List Zone × Int
  | [], active => (IOStat.ok, [], active)
  | z :: rest, active =>
    if finishPred threshold z then
      match Zone.Finish z zoneSize (be.finishRes z.start) with
      | (IOStat.ok, z') =>
        let r := applyFinishThresholdGo be zoneSize threshold rest (active - 1)
        (r.1, z' :: r.2.1, r.2.2)
      | (s, z') => (s, z' :: rest, active)
    else
      let r := applyFinishThresholdGo be zoneSize threshold rest active
      (r.1, z :: r.2.1, r.2.2)

/-- `ZonedBlockDevice::ApplyFinishThreshold()` (lines 592-622): returns
`ok` immediately when `finish_threshold_ == 0`, otherwise runs the
registry traversal. -/
def ZonedBlockDevice.ApplyFinishThreshold (be : ZonedBlockDeviceBackend)
    (cfg : ZbdConfig) (st : ZonedBlockDevice) : IOStat × ZonedBlockDevice :=
  if cfg.finishThreshold = 0 then (IOStat.ok, st)
  else
    let r := applyFinishThresholdGo be cfg.zoneSize cfg.finishThreshold
      st.ioZones st.activeIOZones
    (r.1, { st with ioZones := r.2.1, activeIOZones := r.2.2 })

/-- `ZonedBlockDevice::EmitLevelZone(emit_zone)` (lines 198-226).  The
zone is erased from the bucket of its lifetime class
(`level_zones[lifetime_ - lifetime_begin_]`), its lease flag and busy
flag are cleared; if the bucket is now empty a fresh empty zone is
obtained from `AllocateEmptyZone` (spinning until one exists — `none`
models the spin never ending), acquired, given the emitted zone's
lifetime and inserted, and the function returns `true`; otherwise both
token counters are decremented and it returns `false`.  A lifetime
below `lifetime_begin_` or a bucket index past the vector makes the
source index `std::vector` out of range — undefined behaviour, modelled
as `none`. -/
def ZonedBlockDevice.EmitLevelZone (cfg : ZbdConfig) (st : ZonedBlockDevice)
    (zstart : Nat) : Option (ZonedBlockDevice × Bool) :=
  match st.getZone zstart with
  | none => none
  | some z =>
    if z.lifetime < cfg.lifetimeBegin then none
    else
      let b := z.lifetime - cfg.lifetimeBegin
      if st.levelZones.length ≤ b then none
      else
        let bucket' := (st.levelZones.getD b []).erase zstart
        let st1 := (st.setBucket b bucket').setZone
          { z with useInLevelZone := false, busy := false }
        if bucket'.isEmpty then
          match ZonedBlockDevice.AllocateEmptyZone st1.ioZones with
          | none => none
          | some f =>
            let st2 := (st1.setZone
              { f with busy := true, lifetime := z.lifetime }).setBucket b
              (f.start :: bucket')
            some (st2, true)
        else
          some ({ st1 with openIOZones := st1.openIOZones - 1,
                           activeIOZones := st1.activeIOZones - 1 }, false)

/-- Modelled from the spec: `IsLevelZone` is declared in the missing
header `zbd_zenfs.h`; §4.8 of the spec describes the zones emitted by
`ResetUnusedIOZones` as those "also in a lifetime bucket", so the test
is membership in some bucket of `level_zones`. -/
def ZonedBlockDevice.IsLevelZone (st : ZonedBlockDevice) (zstart : Nat) : Bool :=
  st.levelZones.any (fun b => b.contains zstart)

/-- The `io_zones` traversal of `ZonedBlockDevice::ResetUnusedIOZones`
(lines 510-536), iterating over the snapshot of registry `start_`
offsets.  Busy zones are skipped; an acquired zone that is non-empty
and unused is reset (a backend reset error is returned at once, the
zone released untouched) and released; if it was not full it either
goes through `EmitLevelZone` (when in a lifetime bucket) or returns its
active token.  Other acquired zones are just released, a no-op. -/
def resetUnusedGo (be : ZonedBlockDeviceBackend) (cfg : ZbdConfig) :
    List Nat → ZonedBlockDevice → Option (IOStat × ZonedBlockDevice)
  | [], st => some (IOStat.ok, st)
  | s :: rest, st =>
    match st.getZone s with
    | none => resetUnusedGo be cfg rest st
    | some z =>
      if z.busy then resetUnusedGo be cfg rest st
      else if !z.IsEmpty && !z.IsUsed then
        let full := z.IsFull
        let r := be.resetRes z.start
        match Zone.Reset z r.1 r.2.1 r.2.2 with
        | (IOStat.ok, z') =>
          let st1 := st.setZone z'
          if !full then
            if st1.IsLevelZone z.start then
              match ZonedBlockDevice.EmitLevelZone cfg st1 z.start with
              | none => none
              | some (st2, _) => resetUnusedGo be cfg rest st2
            else
              resetUnusedGo be cfg rest st1.PutActiveIOZoneToken
          else resetUnusedGo be cfg rest st1
        | (ios, _) => some (ios, st)
      else resetUnusedGo be cfg rest st

/-- `ZonedBlockDevice::ResetUnusedIOZones()` (lines 510-536). -/
def ZonedBlockDevice.ResetUnusedIOZones (be : ZonedBlockDeviceBackend)
    (cfg : ZbdConfig) (st : ZonedBlockDevice) : Option (IOStat × ZonedBlockDevice) :=
  resetUnusedGo be cfg (st.ioZones.map Zone.start) st

/-- The lifetime-rewrite step of `AllocateIOZone` (lines 920-926): a
hint below `WLTH_SHORT` is replaced — the file with `file_id == 5` is
pinned to `lifetime_begin_`, every other such file to class `8` — and
any other hint is used as given. -/
def rewriteFileLifetime (fileLifetime fileId lifetimeBegin : Nat) : Nat :=
  if fileLifetime < WLTH_SHORT then
    if fileId = 5 then lifetimeBegin else 8
  else fileLifetime

/-- The bucket stage of `AllocateIOZone` (lines 927-974), entered with
the effective (rewritten) lifetime.  `level = lifetime - lifetime_begin_`
(an out-of-range index into `level_zones` / `level_active_io_zones_` is
undefined behaviour in the source, modelled as `none`).  The
condition-variable wait admits the caller once
`level_active_io_zones_[level] > 0` or
`open_io_zones_ < max_nr_open_io_zones_`; a caller that would wait
forever is `none`.  If the bucket has an idle zone the counter is
decremented and the first non-leased bucket zone is leased and
returned; otherwise both token counters are incremented, an empty zone
is obtained (spinning — `none` if none ever appears), acquired, bound
to the effective lifetime, inserted into the bucket and leased.  A scan
that finds no non-leased zone dereferences a null pointer in the
source's `Debug` call — also `none`. -/
def levelStage (cfg : ZbdConfig) (st : ZonedBlockDevice) (eff : Nat) :
    Option (IOStat × ZonedBlockDevice × Option Nat) :=
  if eff < cfg.lifetimeBegin then none
  else
    let level := eff - cfg.lifetimeBegin
    if st.levelZones.length ≤ level ∨ st.levelActiveIOZones.length ≤ level then none
    else
      let la := st.levelActiveIOZones.getD level 0
      if 0 < la then
        let pick := (st.levelZones.getD level []).find? (fun zid =>
          match st.getZone zid with
          | some z => !z.useInLevelZone
          | none => false)
        match pick with
        | none => none
        | some zid =>
          match st.getZone zid with
          | none => none
          | some z =>
            let st' := (st.setLevelActive level (la - 1)).setZone
              { z with useInLevelZone := true }
            some (IOStat.ok, st', some zid)
      else if st.openIOZones < cfg.maxNrOpenIOZones then
        let st1 := { st with openIOZones := st.openIOZones + 1,
                             activeIOZones := st.activeIOZones + 1 }
        match ZonedBlockDevice.AllocateEmptyZone st1.ioZones with
        | none => none
        | some f =>
          let st2 := (st1.setZone
            { f with busy := true, lifetime := eff,
                     useInLevelZone := true }).setBucket level
            (f.start :: st1.levelZones.getD level [])
          some (IOStat.ok, st2, some f.start)
      else none

/-- The non-WAL maintenance of `AllocateIOZone` (lines 908-917):
`ApplyFinishThreshold` followed, if it returned `ok`, by
`ResetUnusedIOZones`; a non-ok status short-circuits. -/
def maintenanceStep (be : ZonedBlockDeviceBackend) (cfg : ZbdConfig)
    (st : ZonedBlockDevice) : Option (IOStat × ZonedBlockDevice) :=
  match st.ApplyFinishThreshold be cfg with
  | (IOStat.ok, st1) => st1.ResetUnusedIOZones be cfg
  | (s, st1) => some (s, st1)

/-- `ZonedBlockDevice::AllocateIOZone` after the deferred-status check
(lines 908-1065): maintenance for non-WAL I/O, the lifetime rewrite,
then the bucket stage.  The result carries the returned status, the
final state and the `start_` of `*out_zone` (when non-null). -/
def allocateIOZoneRest (be : ZonedBlockDeviceBackend) (cfg : ZbdConfig)
    (st : ZonedBlockDevice) (fileLifetime fileId : Nat) (ioType : IOType) :
    Option (IOStat × ZonedBlockDevice × Option Nat) :=
  match (if ioType = IOType.kWAL then some (IOStat.ok, st)
         else maintenanceStep be cfg st) with
  | none => none
  | some (s, st1) =>
    if s ≠ IOStat.ok then some (s, st1, none)
    else levelStage cfg st1 (rewriteFileLifetime fileLifetime fileId cfg.lifetimeBegin)

/-- `ZonedBlockDevice::AllocateIOZone(file_lifetime, io_type, out_zone,
file_id)` (lines 882-1066): the deferred I/O error latch is consulted
first and a non-ok latched status returned unchanged; otherwise the
allocation proceeds. -/
def ZonedBlockDevice.AllocateIOZone (be : ZonedBlockDeviceBackend) (cfg : ZbdConfig)
    (st : ZonedBlockDevice) (deferred : IOStat) (fileLifetime fileId : Nat)
    (ioType : IOType) : Option (IOStat × ZonedBlockDevice × Option Nat) :=
  if GetZoneDeferredStatus deferred ≠ IOStat.ok then some (deferred, st, none)
  else allocateIOZoneRest be cfg st fileLifetime fileId ioType

/-- The loop body of `ZonedBlockDevice::InitialLevelZones()`
(lines 175-194): for each level `i` below `diff_level_num_` it
unconditionally increments both token counters, obtains an empty zone
(`exit(1)` on error and a null-dereference when none exists — both
`none`), binds it to lifetime `i + lifetime_begin_`, inserts it into
bucket `i` and increments `level_active_io_zones_[i]`. -/
def initialLevelZonesGo (cfg : ZbdConfig) :
    Nat → Nat → ZonedBlockDevice → Option ZonedBlockDevice
  | _, 0, st => some st
  | i, n + 1, st =>
    let st1 := { st with openIOZones := st.openIOZones + 1,
                         activeIOZones := st.activeIOZones + 1 }
    match ZonedBlockDevice.AllocateEmptyZone st1.ioZones with
    | none => none
    | some z =>
      if st1.levelZones.length ≤ i ∨ st1.levelActiveIOZones.length ≤ i then none
      else
        let st2 := ((st1.setZone
          { z with busy := true, lifetime := i + cfg.lifetimeBegin }).setBucket i
          (z.start :: st1.levelZones.getD i [])).setLevelActive i
          (st1.levelActiveIOZones.getD i 0 + 1)
        initialLevelZonesGo cfg (i + 1) n st2

/-- `ZonedBlockDevice::InitialLevelZones()` (lines 175-194). -/
def ZonedBlockDevice.InitialLevelZones (cfg : ZbdConfig) (st : ZonedBlockDevice) :
    Option ZonedBlockDevice :=
  initialLevelZonesGo cfg 0 cfg.diffLevelNum st

/-- `ZonedBlockDevice::AllocateMetaZone(out_meta_zone)` (lines 483-508)
over the `meta_zones` list: the first zone that can be acquired and is
not used is returned with `busy_` set, after a reset when it is
non-empty; a zone whose reset fails is released and skipped; if the
scan finds nothing the function returns `NoSpace`.  An acquired zone
that turns out to be used falls out of both `if` blocks and is left
acquired (its `busy_` flag stays set).  The result carries the status,
the returned zone (if any) and the updated list. -/
def AllocateMetaZone (be : ZonedBlockDeviceBackend) :
    List Zone → IOStat × Option Zone × List Zone
  | [] => (IOStat.noSpace, none, [])
  | z :: rest =>
    if z.busy then
      let r := AllocateMetaZone be rest
      (r.1, r.2.1, z :: r.2.2)
    else if z.IsUsed then
      let r := AllocateMetaZone be rest
      (r.1, r.2.1, { z with busy := true } :: r.2.2)
    else if z.IsEmpty then
      (IOStat.ok, some { z with busy := true }, { z with busy := true } :: rest)
    else
      let rr := be.resetRes z.start
      match Zone.Reset { z with busy := true } rr.1 rr.2.1 rr.2.2 with
      | (IOStat.ok, z') => (IOStat.ok, some z', z' :: rest)
      | (_, z') =>
        let r := AllocateMetaZone be rest
        (r.1, r.2.1, { z' with busy := false } :: r.2.2)

/-- The observable allocator and release operations of claim C1, each
carrying the external inputs its source counterpart consumes. -/
inductive MgrOp where
  | allocateIOZone (be : ZonedBlockDeviceBackend) (deferred : IOStat)
      (fileLifetime fileId : Nat) (ioType : IOType)
  | initialLevelZones
  | emitLevelZone (zstart : Nat)
  | waitForOpenIOZoneToken (prioritized : Bool)
  | getActiveIOZoneTokenIfAvailable
  | putOpenIOZoneToken
  | putActiveIOZoneToken

/-- One observable step of the manager: each operation is the embedded
source function, with `none` when the source call blocks forever or
hits undefined behaviour. -/
def mgrStep (cfg : ZbdConfig) (st : ZonedBlockDevice) :
    MgrOp → Option ZonedBlockDevice
  | MgrOp.allocateIOZone be d fl fid io =>
      (st.AllocateIOZone be cfg d fl fid io).map (fun r => r.2.1)
  | MgrOp.initialLevelZones => st.InitialLevelZones cfg
  | MgrOp.emitLevelZone zs => (st.EmitLevelZone cfg zs).map (fun r => r.1)
  | MgrOp.waitForOpenIOZoneToken p => st.WaitForOpenIOZoneToken cfg p
  | MgrOp.getActiveIOZoneTokenIfAvailable =>
      some (st.GetActiveIOZoneTokenIfAvailable cfg).2
  | MgrOp.putOpenIOZoneToken => some st.PutOpenIOZoneToken
  | MgrOp.putActiveIOZoneToken => some st.PutActiveIOZoneToken

/-- Run a sequence of observable operations. -/
def mgrRun (cfg : ZbdConfig) : ZonedBlockDevice → List MgrOp → Option ZonedBlockDevice
  | st, [] => some st
  | st, op :: ops =>
    match mgrStep cfg st op with
    | none => none
    | some st' => mgrRun cfg st' ops

/-- The two counter caps of invariant I5. -/
def capsOk (cfg : ZbdConfig) (st : ZonedBlockDevice) : Prop :=
  st.openIOZones ≤ cfg.maxNrOpenIOZones ∧ st.activeIOZones ≤ cfg.maxNrActiveIOZones

instance (cfg : ZbdConfig) (st : ZonedBlockDevice) : Decidable (capsOk cfg st) :=
  inferInstanceAs (Decidable (And _ _))

/-- The token-only operations among `MgrOp`: those whose every path
checks the relevant cap before incrementing a counter (or only ever
decrements one). -/
def MgrOp.isTokenOp : MgrOp → Bool
  | MgrOp.waitForOpenIOZoneToken _ => true
  | MgrOp.getActiveIOZoneTokenIfAvailable => true
  | MgrOp.putOpenIOZoneToken => true
  | MgrOp.putActiveIOZoneToken => true
  | MgrOp.emitLevelZone _ => true
  | _ => false

/-- The operations other than `InitialLevelZones`. -/
def MgrOp.isNotInit : MgrOp → Bool
  | MgrOp.initialLevelZones => false
  | _ => true

/-- Total bytes reported by the successful writes of a trace segment. -/
def sumOkWrites : List WriteRes → Nat
  | [] => 0
  | WriteRes.ok n :: rest => n + sumOkWrites rest
  | WriteRes.err _ :: rest => sumOkWrites rest

/-- The write-pointer bound that the per-zone operations actually
maintain: `start_ ≤ wp_` and `wp_ + capacity_` never exceeds
`start_ +` the larger of `max_capacity_` and the device zone size
(`Finish` moves `wp_` to `start_ + zone_size`, not to
`start_ + max_capacity_`). -/
def zoneBound (zoneSize : Nat) (z : Zone) : Prop :=
  z.start ≤ z.wp ∧ z.wp + z.capacity ≤ z.start + max z.maxCapacity zoneSize

instance (zoneSize : Nat) (z : Zone) : Decidable (zoneBound zoneSize z) :=
  inferInstanceAs (Decidable (And _ _))

/-- The conditions under which the `AllocateMetaZone` scan passes over
a meta zone: it is busy (`Acquire` fails), or it is used, or it is
non-empty and its backend reset fails. -/
def metaSkip (be : ZonedBlockDeviceBackend) (z : Zone) : Bool :=
  z.busy || z.IsUsed || (!z.IsEmpty && decide ((be.resetRes z.start).1 ≠ IOStat.ok))

/-- A trivial backend whose finishes and resets all succeed. -/
def cexBe : ZonedBlockDeviceBackend :=
  { finishRes := fun _ => IOStat.ok, resetRes := fun _ => (IOStat.ok, false, 0) }

/-- A configuration with one lifetime level and an active cap of zero:
`max_nr_active_io_zones_ = max_active - reserved` can be arbitrarily
small on a device with a small active-zone limit. -/
def cexCfg : ZbdConfig :=
  { maxNrOpenIOZones := 5, maxNrActiveIOZones := 0, lifetimeBegin := 3,
    diffLevelNum := 1, finishThreshold := 0, zoneSize := 100 }

/-- One empty, acquirable I/O zone. -/
def cexZone : Zone :=
  { start := 0, maxCapacity := 100, capacity := 100, wp := 0,
    usedCapacity := 0, lifetime := 0, busy := false, useInLevelZone := false }

/-- An initial registry state satisfying both caps. -/
def cexSt : ZonedBlockDevice :=
  { ioZones := [cexZone], levelZones := [[]], levelActiveIOZones := [0],
    openIOZones := 0, activeIOZones := 0 }

/-- The state `InitialLevelZones` produces from `cexSt`. -/
def cexStAfterInit : ZonedBlockDevice :=
  { ioZones := [{ cexZone with lifetime := 3, busy := true }],
    levelZones := [[0]], levelActiveIOZones := [1],
    openIOZones := 1, activeIOZones := 1 }

/-- The state the new-zone path of `AllocateIOZone` produces from
`cexSt`. -/
def cexStAfterAlloc : ZonedBlockDevice :=
  { ioZones := [{ cexZone with busy := true, lifetime := 3, useInLevelZone := true }],
    levelZones := [[0]], levelActiveIOZones := [0],
    openIOZones := 1, activeIOZones := 1 }

/-- A writable zone used to instantiate the per-zone theorems:
8 bytes of remaining capacity at `wp = 20`. -/
def wZoneA : Zone :=
  { start := 10, maxCapacity := 100, capacity := 8, wp := 20,
    usedCapacity := 0, lifetime := 3, busy := true, useInLevelZone := false }

/-- A non-empty zone sitting in bucket 0 (lifetime 3), exclusively
held, about to be emitted. -/
def wEmitZ : Zone :=
  { start := 5, maxCapacity := 100, capacity := 40, wp := 65,
    usedCapacity := 0, lifetime := 3, busy := true, useInLevelZone := true }

/-- An empty acquirable zone available as the replacement seed. -/
def wFreshZ : Zone :=
  { start := 200, maxCapacity := 100, capacity := 100, wp := 200,
    usedCapacity := 0, lifetime := 0, busy := false, useInLevelZone := false }

/-- A manager state in which bucket 0 holds only `wEmitZ`. -/
def wEmitSt : ZonedBlockDevice :=
  { ioZones := [wEmitZ, wFreshZ], levelZones := [[5]],
    levelActiveIOZones := [0], openIOZones := 1, activeIOZones := 1 }

/-- A manager state with one idle pre-seeded zone in bucket 0. -/
def wAllocSt : ZonedBlockDevice :=
  { ioZones := [{ wFreshZ with start := 0, wp := 0, lifetime := 3, busy := true }],
    levelZones := [[0]], levelActiveIOZones := [1],
    openIOZones := 1, activeIOZones := 1 }

/-- A configuration with a finish threshold of 20 percent. -/
def wCfg20 : ZbdConfig :=
  { maxNrOpenIOZones := 5, maxNrActiveIOZones := 5, lifetimeBegin := 3,
    diffLevelNum := 1, finishThreshold := 20, zoneSize := 100 }

/-- A 90-percent-written idle zone that falls under the 20-percent
finish threshold. -/
def wFinZone : Zone :=
  { start := 0, maxCapacity := 100, capacity := 10, wp := 90,
    usedCapacity := 3, lifetime := 4, busy := false, useInLevelZone := false }

/-- A manager state holding just the threshold-eligible zone. -/
def wFinSt : ZonedBlockDevice :=
  { ioZones := [wFinZone], levelZones := [[]], levelActiveIOZones := [0],
    openIOZones := 1, activeIOZones := 1 }

/-- A backend whose `Finish` calls all fail with `EIO`-style error 5. -/
def wBeFinErr : ZonedBlockDeviceBackend :=
  { finishRes := fun _ => IOStat.ioError 5, resetRes := fun _ => (IOStat.ok, false, 0) }

/-- A used meta zone (live data) followed by an acquirable, unused,
non-empty meta zone. -/
def wMetaZones : List Zone :=
  [{ wZoneA with busy := false, usedCapacity := 7 },
   { wFreshZ with start := 300, wp := 350, capacity := 50 }]

/-! Helper lemmas about the state-update primitives. -/

@[simp]
theorem setZone_levelZones (st : ZonedBlockDevice) (z : Zone) :
    (st.setZone z).levelZones = st.levelZones := rfl

@[simp]
theorem setZone_levelActive (st : ZonedBlockDevice) (z : Zone) :
    (st.setZone z).levelActiveIOZones = st.levelActiveIOZones := rfl

@[simp]
theorem setZone_openIOZones (st : ZonedBlockDevice) (z : Zone) :
    (st.setZone z).openIOZones = st.openIOZones := rfl

@[simp]
theorem setZone_activeIOZones (st : ZonedBlockDevice) (z : Zone) :
    (st.setZone z).activeIOZones = st.activeIOZones := rfl

@[simp]
theorem setBucket_ioZones (st : ZonedBlockDevice) (i : Nat) (b : List Nat) :
    (st.setBucket i b).ioZones = st.ioZones := rfl

@[simp]
theorem setBucket_levelZones (st : ZonedBlockDevice) (i : Nat) (b : List Nat) :
    (st.setBucket i b).levelZones = st.levelZones.set i b := rfl

@[simp]
theorem setBucket_levelActive (st : ZonedBlockDevice) (i : Nat) (b : List Nat) :
    (st.setBucket i b).levelActiveIOZones = st.levelActiveIOZones := rfl

@[simp]
theorem setBucket_openIOZones (st : ZonedBlockDevice) (i : Nat) (b : List Nat) :
    (st.setBucket i b).openIOZones = st.openIOZones := rfl

@[simp]
theorem setBucket_activeIOZones (st : ZonedBlockDevice) (i : Nat) (b : List Nat) :
    (st.setBucket i b).activeIOZones = st.activeIOZones := rfl

@[simp]
theorem setLevelActive_ioZones (st : ZonedBlockDevice) (i : Nat) (v : Int) :
    (st.setLevelActive i v).ioZones = st.ioZones := rfl

@[simp]
theorem setLevelActive_levelZones (st : ZonedBlockDevice) (i : Nat) (v : Int) :
    (st.setLevelActive i v).levelZones = st.levelZones := rfl

@[simp]
theorem setLevelActive_openIOZones (st : ZonedBlockDevice) (i : Nat) (v : Int) :
    (st.setLevelActive i v).openIOZones = st.openIOZones := rfl

@[simp]
theorem setLevelActive_activeIOZones (st : ZonedBlockDevice) (i : Nat) (v : Int) :
    (st.setLevelActive i v).activeIOZones = st.activeIOZones := rfl

@[simp]
theorem putActive_openIOZones (st : ZonedBlockDevice) :
    st.PutActiveIOZoneToken.openIOZones = st.openIOZones := rfl

@[simp]
theorem putActive_activeIOZones (st : ZonedBlockDevice) :
    st.PutActiveIOZoneToken.activeIOZones = st.activeIOZones - 1 := rfl

theorem getD_set_self {α : Type} (l : List α) (i : Nat) (x d : α)
    (h : i < l.length) : (l.set i x).getD i d = x := by
  rw [List.getD_eq_getElem?_getD, List.getElem?_set_self h]
  rfl

theorem getD_set_ne {α : Type} (l : List α) (i j : Nat) (x d : α)
    (h : i ≠ j) : (l.set i x).getD j d = l.getD j d := by
  rw [List.getD_eq_getElem?_getD, List.getElem?_set_ne h,
    ← List.getD_eq_getElem?_getD]

theorem start_eq_of_getZone {st : ZonedBlockDevice} {s : Nat} {z : Zone}
    (h : st.getZone s = some z) : z.start = s := by
  have := List.find?_some h
  simpa using this

theorem mem_of_getZone {st : ZonedBlockDevice} {s : Nat} {z : Zone}
    (h : st.getZone s = some z) : z ∈ st.ioZones :=
  List.mem_of_find?_eq_some h

theorem find?_map_update_self {zones : List Zone} {s : Nat} {z : Zone}
    (z' : Zone) (hs : z'.start = s)
    (h : zones.find? (fun w => w.start == s) = some z) :
    (zones.map (fun w => if w.start == z'.start then z' else w)).find?
      (fun w => w.start == s) = some z' := by
  subst hs
  induction zones with
  | nil => simp at h
  | cons a as ih =>
    rw [List.map_cons]
    by_cases ha : a.start = z'.start
    · rw [if_pos (by simpa using ha)]
      exact List.find?_cons_of_pos _ (by simp)
    · rw [if_neg (by simpa using ha)]
      rw [List.find?_cons_of_neg _ (by simpa using ha)]
      rw [List.find?_cons_of_neg _ (by simpa using ha)] at h
      exact ih h

theorem find?_map_update_ne {zones : List Zone} {t : Nat}
    (z' : Zone) (hs : z'.start ≠ t) :
    (zones.map (fun w => if w.start == z'.start then z' else w)).find?
      (fun w => w.start == t) = zones.find? (fun w => w.start == t) := by
  induction zones with
  | nil => simp
  | cons a as ih =>
    rw [List.map_cons]
    by_cases ha : a.start = z'.start
    · have hat : ¬ (a.start = t) := by rw [ha]; exact hs
      rw [if_pos (by simpa using ha)]
      rw [List.find?_cons_of_neg _ (by simpa using hs)]
      rw [List.find?_cons_of_neg _ (by simpa using hat)]
      exact ih
    · by_cases hat : a.start = t
      · rw [if_neg (by simpa using ha)]
        rw [List.find?_cons_of_pos _ (by simpa using hat)]
        rw [List.find?_cons_of_pos _ (by simpa using hat)]
      · rw [if_neg (by simpa using ha)]
        rw [List.find?_cons_of_neg _ (by simpa using hat)]
        rw [List.find?_cons_of_neg _ (by simpa using hat)]
        exact ih

theorem getZone_setZone_self {st : ZonedBlockDevice} {s : Nat} {z : Zone}
    (z' : Zone) (hs : z'.start = s) (h : st.getZone s = some z) :
    (st.setZone z').getZone s = some z' :=
  find?_map_update_self z' hs h

theorem getZone_setZone_ne {st : ZonedBlockDevice} {t : Nat}
    (z' : Zone) (hs : z'.start ≠ t) :
    (st.setZone z').getZone t = st.getZone t :=
  find?_map_update_ne z' hs

theorem map_start_setZone (st : ZonedBlockDevice) (z' : Zone) :
    (st.setZone z').ioZones.map Zone.start = st.ioZones.map Zone.start := by
  show (st.ioZones.map _).map Zone.start = _
  rw [List.map_map]
  apply List.map_congr_left
  intro a _
  by_cases ha : a.start = z'.start
  · simp [Function.comp, ha]
  · simp [Function.comp, ha]

theorem mem_eq_of_start_nodup {zones : List Zone}
    (hn : (zones.map Zone.start).Nodup) {w w' : Zone}
    (hw : w ∈ zones) (hw' : w' ∈ zones) (h : w.start = w'.start) : w = w' := by
  induction zones with
  | nil => simp at hw
  | cons a as ih =>
    simp only [List.map_cons, List.nodup_cons] at hn
    rcases List.mem_cons.mp hw with rfl | hw2
    · rcases List.mem_cons.mp hw' with rfl | hw'2
      · rfl
      · exact absurd (h ▸ List.mem_map_of_mem Zone.start hw'2) hn.1
    · rcases List.mem_cons.mp hw' with rfl | hw'2
      · exact absurd (h ▸ List.mem_map_of_mem Zone.start hw2) hn.1
      · exact ih hn.2 hw2 hw'2

/-! Helper lemmas about the `Zone::Append` write loop. -/

theorem appendLoop_ok_eq {ws : List WriteRes} : ∀ {left wp cap wp' cap' : Nat},
    validWrites left ws = true →
    appendLoop ws left wp cap = some (IOStat.ok, wp', cap') →
    wp' = wp + left ∧ cap' = cap - left := by
  induction ws with
  | nil =>
    intro left wp cap wp' cap' _ h
    match left with
    | 0 =>
      simp only [appendLoop, Option.some.injEq, Prod.mk.injEq] at h
      omega
    | _ + 1 => simp [appendLoop] at h
  | cons w rest ih =>
    intro left wp cap wp' cap' hv h
    match left with
    | 0 =>
      simp only [appendLoop, Option.some.injEq, Prod.mk.injEq] at h
      omega
    | l + 1 =>
      match w with
      | WriteRes.err e => simp [appendLoop] at h
      | WriteRes.ok n =>
        simp only [appendLoop] at h
        simp only [validWrites, Bool.and_eq_true, decide_eq_true_eq] at hv
        have := ih hv.2 h
        omega

theorem appendLoop_mono {ws : List WriteRes} : ∀ {left wp cap wp' cap' : Nat}
    {s : IOStat}, validWrites left ws = true → left ≤ cap →
    appendLoop ws left wp cap = some (s, wp', cap') →
    wp ≤ wp' ∧ wp' + cap' = wp + cap ∧ wp' ≤ wp + left := by
  induction ws with
  | nil =>
    intro left wp cap wp' cap' s _ _ h
    match left with
    | 0 =>
      simp only [appendLoop, Option.some.injEq, Prod.mk.injEq] at h
      omega
    | _ + 1 => simp [appendLoop] at h
  | cons w rest ih =>
    intro left wp cap wp' cap' s hv hlc h
    match left with
    | 0 =>
      simp only [appendLoop, Option.some.injEq, Prod.mk.injEq] at h
      omega
    | l + 1 =>
      match w with
      | WriteRes.err e =>
        simp only [appendLoop, Option.some.injEq, Prod.mk.injEq] at h
        omega
      | WriteRes.ok n =>
        simp only [appendLoop] at h
        simp only [validWrites, Bool.and_eq_true, decide_eq_true_eq] at hv
        have := ih hv.2 (by omega) h
        omega

theorem appendLoop_err_eq {ws : List WriteRes} : ∀ {left wp cap wp' cap' : Nat}
    {e : Nat}, validWrites left ws = true →
    appendLoop ws left wp cap = some (IOStat.ioError e, wp', cap') →
    ∃ pre rest2, ws = pre ++ WriteRes.err e :: rest2 ∧
      (∀ w ∈ pre, ∃ n, w = WriteRes.ok n) ∧
      wp' = wp + sumOkWrites pre ∧ cap' = cap - sumOkWrites pre ∧
      sumOkWrites pre < left := by
  induction ws with
  | nil =>
    intro left wp cap wp' cap' e _ h
    match left with
    | 0 => simp [appendLoop] at h
    | _ + 1 => simp [appendLoop] at h
  | cons w rest ih =>
    intro left wp cap wp' cap' e hv h
    match left with
    | 0 => simp [appendLoop] at h
    | l + 1 =>
      match w with
      | WriteRes.err e' =>
        simp only [appendLoop, Option.some.injEq, Prod.mk.injEq,
          IOStat.ioError.injEq] at h
        refine ⟨[], rest, ?_, ?_, ?_, ?_, ?_⟩
        · rw [List.nil_append, h.1]
        · simp
        · simpa [sumOkWrites] using h.2.1.symm
        · simpa [sumOkWrites] using h.2.2.symm
        · simp [sumOkWrites]
      | WriteRes.ok n =>
        simp only [appendLoop] at h
        simp only [validWrites, Bool.and_eq_true, decide_eq_true_eq] at hv
        obtain ⟨pre, rest2, hsplit, hok, hwp, hcap, hlt⟩ := ih hv.2 h
        refine ⟨WriteRes.ok n :: pre, rest2, by rw [hsplit]; rfl, ?_, ?_, ?_, ?_⟩
        · intro x hx
          rcases List.mem_cons.mp hx with rfl | hx2
          · exact ⟨n, rfl⟩
          · exact hok x hx2
        · simp only [sumOkWrites]; omega
        · simp only [sumOkWrites]; omega
        · simp only [sumOkWrites]; omega

/-- Claim C2: for every zone and every `Append(buf, size)` with
`size > 0` and `size` a multiple of the backend block size: if
`capacity < size` the call returns `NoSpace` without issuing any
backend write (the result is the same for every write trace) and
leaves `wp` and `capacity` unchanged; otherwise the loop advances `wp`
and shrinks `capacity` by exactly the bytes each backend write
reported, returning `OK` exactly when all `size` bytes are placed (so
`wp` has advanced by exactly `size`); a negative backend write return
yields `IOError` with `wp` advanced by exactly the bytes the device
accepted before the failure. -/
theorem claim_C2 :
    (∀ (z : Zone) (size : Nat) (ws : List WriteRes) (blockSize : Nat),
      0 < size → size % blockSize = 0 → z.capacity < size →
      Zone.Append z size ws = some (IOStat.noSpace, z)) ∧
    (∀ (z : Zone) (size : Nat) (ws : List WriteRes) (blockSize : Nat) (z' : Zone),
      0 < size → size % blockSize = 0 → validWrites size ws = true →
      Zone.Append z size ws = some (IOStat.ok, z') →
      size ≤ z.capacity ∧ z'.wp = z.wp + size ∧
      z'.capacity = z.capacity - size ∧ z'.start = z.start ∧
      z'.maxCapacity = z.maxCapacity) ∧
    (∀ (z : Zone) (size : Nat) (ws : List WriteRes) (blockSize : Nat)
      (e : Nat) (z' : Zone),
      0 < size → size % blockSize = 0 → validWrites size ws = true →
      Zone.Append z size ws = some (IOStat.ioError e, z') →
      ∃ pre rest, ws = pre ++ WriteRes.err e :: rest ∧
        (∀ w ∈ pre, ∃ n, w = WriteRes.ok n) ∧
        z'.wp = z.wp + sumOkWrites pre ∧
        z'.capacity = z.capacity - sumOkWrites pre ∧
        sumOkWrites pre < size) := by
  refine ⟨?_, ?_, ?_⟩
  · intro z size ws blockSize _ _ hcap
    simp [Zone.Append, hcap]
  · intro z size ws blockSize z' _ _ hv happ
    by_cases hcap : z.capacity < size
    · simp [Zone.Append, hcap] at happ
    · simp only [Zone.Append, hcap, if_false, Option.map_eq_some'] at happ
      obtain ⟨⟨s0, wp', cap'⟩, hloop, heq⟩ := happ
      simp only [Prod.mk.injEq] at heq
      obtain ⟨hs, hz'⟩ := heq
      obtain ⟨hwp, hcap'⟩ := appendLoop_ok_eq hv (hs ▸ hloop)
      refine ⟨by omega, ?_, ?_, ?_, ?_⟩
      · rw [← hz']; simpa using hwp
      · rw [← hz']; simpa using hcap'
      · rw [← hz']
      · rw [← hz']
  · intro z size ws blockSize e z' _ _ hv happ
    by_cases hcap : z.capacity < size
    · simp [Zone.Append, hcap] at happ
    · simp only [Zone.Append, hcap, if_false, Option.map_eq_some'] at happ
      obtain ⟨⟨s0, wp', cap'⟩, hloop, heq⟩ := happ
      simp only [Option.some.injEq, Prod.mk.injEq] at heq
      obtain ⟨hs, hz'⟩ := heq
      obtain ⟨pre, rest, hsplit, hok, hwp, hcap', hlt⟩ :=
        appendLoop_err_eq hv (hs ▸ hloop)
      refine ⟨pre, rest, hsplit, hok, ?_, ?_, hlt⟩
      · rw [← hz']; simpa using hwp
      · rw [← hz']; simpa using hcap'

/-- Witness for claim C2, instantiating all three conjuncts on `wZoneA`
(capacity 8): a 16-byte append fails with `NoSpace`; a 4-byte append
completed by two 2-byte writes returns `OK` having advanced `wp` from
20 to 24; a 4-byte append whose second write fails returns `IOError 5`
with `wp` at 22. -/
theorem claim_C2_witness :
    Zone.Append wZoneA 16 [] = some (IOStat.noSpace, wZoneA) ∧
    (4 ≤ wZoneA.capacity ∧
      ({ wZoneA with wp := 24, capacity := 4 } : Zone).wp = wZoneA.wp + 4 ∧
      ({ wZoneA with wp := 24, capacity := 4 } : Zone).capacity =
        wZoneA.capacity - 4 ∧
      ({ wZoneA with wp := 24, capacity := 4 } : Zone).start = wZoneA.start ∧
      ({ wZoneA with wp := 24, capacity := 4 } : Zone).maxCapacity =
        wZoneA.maxCapacity) ∧
    (∃ pre rest,
      ([WriteRes.ok 2, WriteRes.err 5] : List WriteRes) =
        pre ++ WriteRes.err 5 :: rest ∧
      (∀ w ∈ pre, ∃ n, w = WriteRes.ok n) ∧
      ({ wZoneA with wp := 22, capacity := 6 } : Zone).wp =
        wZoneA.wp + sumOkWrites pre ∧
      ({ wZoneA with wp := 22, capacity := 6 } : Zone).capacity =
        wZoneA.capacity - sumOkWrites pre ∧
      sumOkWrites pre < 4) := by
  refine ⟨?_, ?_, ?_⟩
  · exact claim_C2.1 wZoneA 16 [] 4 (by decide) (by decide) (by decide)
  · exact claim_C2.2.1 wZoneA 4 [WriteRes.ok 2, WriteRes.ok 2] 4
      { wZoneA with wp := 24, capacity := 4 }
      (by decide) (by decide) (by decide) (by decide)
  · exact claim_C2.2.2 wZoneA 4 [WriteRes.ok 2, WriteRes.err 5] 4 5
      { wZoneA with wp := 22, capacity := 6 }
      (by decide) (by decide) (by decide) (by decide)

/-- Claim C4: `Zone::Reset`, called with `used_capacity == 0` and the
busy flag held: on backend success it sets `wp = start` and
`lifetime = NOT_SET`, and sets `capacity` and `max_capacity` to the
backend-reported new `max_capacity` for a non-offline zone (so the
zone `IsEmpty`), while a zone the backend reports offline has
`capacity = 0` thereafter; on backend error the status is returned and
the zone's fields stay in their prior state. -/
theorem claim_C4 :
    (∀ (z : Zone) (ios : IOStat) (offline : Bool) (mc : Nat),
      z.usedCapacity = 0 → z.busy = true → ios ≠ IOStat.ok →
      Zone.Reset z ios offline mc = (ios, z)) ∧
    (∀ (z : Zone) (mc : Nat), z.usedCapacity = 0 → z.busy = true →
      Zone.Reset z IOStat.ok false mc =
        (IOStat.ok, { z with
                        maxCapacity := mc, capacity := mc,
                        wp := z.start, lifetime := WLTH_NOT_SET }) ∧
      ((Zone.Reset z IOStat.ok false mc).2).IsEmpty = true) ∧
    (∀ (z : Zone) (mc : Nat), z.usedCapacity = 0 → z.busy = true →
      Zone.Reset z IOStat.ok true mc =
        (IOStat.ok, { z with
                        capacity := 0,
                        wp := z.start, lifetime := WLTH_NOT_SET }) ∧
      ((Zone.Reset z IOStat.ok true mc).2).capacity = 0 ∧
      ((Zone.Reset z IOStat.ok true mc).2).IsEmpty = true) := by
  refine ⟨?_, ?_, ?_⟩
  · intro z ios offline mc _ _ hios
    simp [Zone.Reset, hios]
  · intro z mc _ _
    simp [Zone.Reset, Zone.IsEmpty]
  · intro z mc _ _
    simp [Zone.Reset, Zone.IsEmpty]

/-- Witness for claim C4 at `wZoneA` (unused, busy): a failing backend
reset leaves the zone untouched, a successful online reset installs
the reported capacity 50, a successful offline reset zeroes the
capacity. -/
theorem claim_C4_witness :
    Zone.Reset wZoneA (IOStat.ioError 7) false 50 = (IOStat.ioError 7, wZoneA) ∧
    Zone.Reset wZoneA IOStat.ok false 50 =
      (IOStat.ok, { wZoneA with
                      maxCapacity := 50, capacity := 50,
                      wp := wZoneA.start, lifetime := WLTH_NOT_SET }) ∧
    (Zone.Reset wZoneA IOStat.ok true 50).2.capacity = 0 := by
  refine ⟨?_, ?_, ?_⟩
  · exact claim_C4.1 wZoneA (IOStat.ioError 7) false 50 (by decide) (by decide)
      (by decide)
  · exact (claim_C4.2.1 wZoneA 50 (by decide) (by decide)).1
  · exact (claim_C4.2.2 wZoneA 50 (by decide) (by decide)).2.1

/-- Claim C10: `SetZoneDeferredStatus(status)` stores `status` into the
deferred-error latch only when the currently latched status is already
non-OK; when the latch holds OK (its initial state) the call leaves it
OK, `GetZoneDeferredStatus` still returns OK, and a subsequent
`AllocateIOZone` proceeds past the deferred-error check instead of
failing there. -/
theorem claim_C10 :
    (∀ s : IOStat, SetZoneDeferredStatus IOStat.ok s = IOStat.ok) ∧
    (∀ cur s : IOStat, cur ≠ IOStat.ok → SetZoneDeferredStatus cur s = s) ∧
    GetZoneDeferredStatus IOStat.ok = IOStat.ok ∧
    (∀ (be : ZonedBlockDeviceBackend) (cfg : ZbdConfig)
      (st : ZonedBlockDevice) (s : IOStat) (fl fid : Nat) (io : IOType),
      st.AllocateIOZone be cfg (SetZoneDeferredStatus IOStat.ok s) fl fid io =
        allocateIOZoneRest be cfg st fl fid io) := by
  refine ⟨?_, ?_, rfl, ?_⟩
  · intro s; simp [SetZoneDeferredStatus]
  · intro cur s h; simp [SetZoneDeferredStatus, h]
  · intro be cfg st s fl fid io
    simp [ZonedBlockDevice.AllocateIOZone, SetZoneDeferredStatus,
      GetZoneDeferredStatus]

/-- Witness for claim C10: a `NoSpace` latch is overwritten by
`IOError 3`, and with an OK latch the allocator on the concrete state
`wAllocSt` does not fail the deferred check but returns the idle
bucket-0 zone. -/
theorem claim_C10_witness :
    SetZoneDeferredStatus IOStat.noSpace (IOStat.ioError 3) = IOStat.ioError 3 ∧
    wAllocSt.AllocateIOZone cexBe cexCfg
      (SetZoneDeferredStatus IOStat.ok IOStat.noSpace) WLTH_NONE 5 IOType.kWAL =
      allocateIOZoneRest cexBe cexCfg wAllocSt WLTH_NONE 5 IOType.kWAL := by
  refine ⟨?_, ?_⟩
  · exact claim_C10.2.1 IOStat.noSpace (IOStat.ioError 3) (by decide)
  · exact claim_C10.2.2.2 cexBe cexCfg wAllocSt IOStat.noSpace WLTH_NONE 5
      IOType.kWAL

/-! Helper lemmas: preservation of the write-pointer bound. -/

theorem zoneBound_append {zoneSize : Nat} {z : Zone} {size : Nat}
    {ws : List WriteRes} {s : IOStat} {z' : Zone}
    (hv : validWrites size ws = true)
    (h : Zone.Append z size ws = some (s, z')) (hb : zoneBound zoneSize z) :
    zoneBound zoneSize z' := by
  by_cases hcap : z.capacity < size
  · simp only [Zone.Append, hcap, if_true, Option.some.injEq,
      Prod.mk.injEq] at h
    rw [← h.2]; exact hb
  · simp only [Zone.Append, hcap, if_false, Option.map_eq_some'] at h
    obtain ⟨⟨s0, wp', cap'⟩, hloop, heq⟩ := h
    simp only [Prod.mk.injEq] at heq
    obtain ⟨hs, hz'⟩ := heq
    obtain ⟨h1, h2, _⟩ := appendLoop_mono hv (by omega) hloop
    obtain ⟨hb1, hb2⟩ := hb
    rw [← hz']
    constructor
    · simp; omega
    · simp; omega

theorem zoneBound_finish {zoneSize : Nat} {z : Zone} {ios s : IOStat}
    {z' : Zone} (h : Zone.Finish z zoneSize ios = (s, z'))
    (hb : zoneBound zoneSize z) : zoneBound zoneSize z' := by
  by_cases hios : ios = IOStat.ok
  · subst hios
    simp only [Zone.Finish, ne_eq, not_true_eq_false, if_false,
      Prod.mk.injEq, reduceIte] at h
    rw [← h.2]
    have h1 := Nat.le_max_right z.maxCapacity zoneSize
    refine ⟨?_, ?_⟩
    · show z.start ≤ z.start + zoneSize
      omega
    · show z.start + zoneSize + 0 ≤ z.start + max z.maxCapacity zoneSize
      omega
  · simp only [Zone.Finish, ne_eq, hios, not_false_eq_true, if_true,
      Prod.mk.injEq, reduceIte] at h
    rw [← h.2]; exact hb

theorem zoneBound_reset {zoneSize : Nat} {z : Zone} {ios : IOStat}
    {off : Bool} {mc : Nat} {s : IOStat} {z' : Zone}
    (h : Zone.Reset z ios off mc = (s, z')) (hb : zoneBound zoneSize z) :
    zoneBound zoneSize z' := by
  by_cases hios : ios = IOStat.ok
  · subst hios
    cases off with
    | true =>
      simp only [Zone.Reset, ne_eq, not_true_eq_false, if_false,
        Prod.mk.injEq, reduceIte] at h
      rw [← h.2]
      refine ⟨?_, ?_⟩
      · show z.start ≤ z.start
        omega
      · show z.start + 0 ≤ z.start + max z.maxCapacity zoneSize
        omega
    | false =>
      simp only [Zone.Reset, ne_eq, not_true_eq_false, if_false,
        Prod.mk.injEq, reduceIte] at h
      rw [← h.2]
      have h1 := Nat.le_max_left mc zoneSize
      refine ⟨?_, ?_⟩
      · show z.start ≤ z.start
        omega
      · show z.start + mc ≤ z.start + max mc zoneSize
        omega
  · simp only [Zone.Reset, ne_eq, hios, not_false_eq_true, if_true,
      Prod.mk.injEq, reduceIte] at h
    rw [← h.2]; exact hb

/-- Counterexample to claim C9 as stated: the zone `wZoneA`
(`start = 10`, `max_capacity = 100`) satisfies
`start ≤ wp ≤ start + max_capacity`, yet a successful `Finish` on a
device with `zone_size = 200` moves `wp` to `start + zone_size = 210`,
past `start + max_capacity = 110`. -/
theorem claim_C9_counterexample :
    wZoneA.start ≤ wZoneA.wp ∧
    wZoneA.wp ≤ wZoneA.start + wZoneA.maxCapacity ∧
    (Zone.Finish wZoneA 200 IOStat.ok).1 = IOStat.ok ∧
    ¬ ((Zone.Finish wZoneA 200 IOStat.ok).2.wp ≤
        (Zone.Finish wZoneA 200 IOStat.ok).2.start +
          (Zone.Finish wZoneA 200 IOStat.ok).2.maxCapacity) := by decide

/-- Claim C9, amended: the bound the zone operations actually preserve
is `start ≤ wp` together with
`wp + capacity ≤ start + max (max_capacity, zone_size)` — `Finish` sets
`wp = start + zone_size`, which exceeds `start + max_capacity` whenever
`zone_size > max_capacity`.  This bound is preserved by `Append` (on
write traces respecting the backend contract), by `Finish` and by
`Reset` in all outcomes; and each successful `Append` advances `wp` by
exactly the appended bytes, staying within `start + max_capacity`
while the writable relation `wp + capacity ≤ start + max_capacity`
held beforehand. -/
theorem claim_C9 :
    (∀ (zoneSize : Nat) (z : Zone) (size : Nat) (ws : List WriteRes)
      (s : IOStat) (z' : Zone), validWrites size ws = true →
      Zone.Append z size ws = some (s, z') →
      zoneBound zoneSize z → zoneBound zoneSize z') ∧
    (∀ (zoneSize : Nat) (z : Zone) (ios s : IOStat) (z' : Zone),
      Zone.Finish z zoneSize ios = (s, z') →
      zoneBound zoneSize z → zoneBound zoneSize z') ∧
    (∀ (zoneSize : Nat) (z : Zone) (ios : IOStat) (off : Bool) (mc : Nat)
      (s : IOStat) (z' : Zone), Zone.Reset z ios off mc = (s, z') →
      zoneBound zoneSize z → zoneBound zoneSize z') ∧
    (∀ (z : Zone) (size : Nat) (ws : List WriteRes) (z' : Zone),
      validWrites size ws = true →
      Zone.Append z size ws = some (IOStat.ok, z') →
      z'.wp = z.wp + size ∧
      (z.wp + z.capacity ≤ z.start + z.maxCapacity →
        z'.wp ≤ z.start + z.maxCapacity)) := by
  refine ⟨?_, ?_, ?_, ?_⟩
  · intro zoneSize z size ws s z' hv h hb
    exact zoneBound_append hv h hb
  · intro zoneSize z ios s z' h hb
    exact zoneBound_finish h hb
  · intro zoneSize z ios off mc s z' h hb
    exact zoneBound_reset h hb
  · intro z size ws z' hv h
    by_cases hcap : z.capacity < size
    · simp [Zone.Append, hcap] at h
    · simp only [Zone.Append, hcap, if_false, Option.map_eq_some'] at h
      obtain ⟨⟨s0, wp', cap'⟩, hloop, heq⟩ := h
      simp only [Prod.mk.injEq] at heq
      obtain ⟨hs, hz'⟩ := heq
      obtain ⟨hwp, _⟩ := appendLoop_ok_eq hv (hs ▸ hloop)
      constructor
      · rw [← hz']; simpa using hwp
      · intro hwrit
        rw [← hz']; simp; omega

/-- Witness for claim C9, instantiating the four conjuncts on `wZoneA`
with `zone_size = 100`: a completed 4-byte append, a successful
finish, a successful online reset to capacity 50, and the exact
write-pointer advance of the append. -/
theorem claim_C9_witness :
    zoneBound 100 ({ wZoneA with wp := 24, capacity := 4 } : Zone) ∧
    zoneBound 100 ({ wZoneA with capacity := 0, wp := 110 } : Zone) ∧
    zoneBound 100 ({ wZoneA with
                     maxCapacity := 50, capacity := 50,
                     wp := wZoneA.start, lifetime := WLTH_NOT_SET } : Zone) ∧
    (({ wZoneA with wp := 24, capacity := 4 } : Zone).wp = wZoneA.wp + 4 ∧
      (wZoneA.wp + wZoneA.capacity ≤ wZoneA.start + wZoneA.maxCapacity →
        ({ wZoneA with wp := 24, capacity := 4 } : Zone).wp ≤
          wZoneA.start + wZoneA.maxCapacity)) := by
  refine ⟨?_, ?_, ?_, ?_⟩
  · exact claim_C9.1 100 wZoneA 4 [WriteRes.ok 2, WriteRes.ok 2] IOStat.ok
      { wZoneA with wp := 24, capacity := 4 }
      (by decide) (by decide) (by decide)
  · exact claim_C9.2.1 100 wZoneA IOStat.ok IOStat.ok
      { wZoneA with capacity := 0, wp := 110 } (by decide) (by decide)
  · exact claim_C9.2.2.1 100 wZoneA IOStat.ok false 50 IOStat.ok
      { wZoneA with
        maxCapacity := 50, capacity := 50,
        wp := wZoneA.start, lifetime := WLTH_NOT_SET }
      (by decide) (by decide)
  · exact claim_C9.2.2.2 wZoneA 4 [WriteRes.ok 2, WriteRes.ok 2]
      { wZoneA with wp := 24, capacity := 4 } (by decide) (by decide)

/-- Claim C5: `WaitForOpenIOZoneToken(prioritized)` admits the caller
exactly when `open_io_zones` is below the limit — the full
`max_nr_open_io_zones` for prioritized callers and
`max_nr_open_io_zones - 1` otherwise — and on admission increments
`open_io_zones` by exactly one, changing nothing else; when the limit
is reached the caller stays blocked on the condition variable. -/
theorem claim_C5 :
    (∀ (cfg : ZbdConfig) (st st' : ZonedBlockDevice) (p : Bool),
      st.WaitForOpenIOZoneToken cfg p = some st' ↔
        (st.openIOZones <
          (if p then cfg.maxNrOpenIOZones else cfg.maxNrOpenIOZones - 1) ∧
        st' = { st with openIOZones := st.openIOZones + 1 })) ∧
    (∀ (cfg : ZbdConfig) (st : ZonedBlockDevice) (p : Bool),
      st.WaitForOpenIOZoneToken cfg p = none ↔
        ¬ st.openIOZones <
          (if p then cfg.maxNrOpenIOZones else cfg.maxNrOpenIOZones - 1)) := by
  constructor
  · intro cfg st st' p
    cases p with
    | true =>
      simp only [reduceIte]
      show (if st.openIOZones < cfg.maxNrOpenIOZones then
          some { st with openIOZones := st.openIOZones + 1 } else none) =
          some st' ↔ _
      split_ifs with h
      · simp only [Option.some.injEq]
        exact ⟨fun he => ⟨h, he.symm⟩, fun he => he.2.symm⟩
      · exact ⟨fun he => absurd he (by simp), fun he => absurd he.1 h⟩
    | false =>
      simp only [Bool.false_eq_true, reduceIte]
      show (if st.openIOZones < cfg.maxNrOpenIOZones - 1 then
          some { st with openIOZones := st.openIOZones + 1 } else none) =
          some st' ↔ _
      split_ifs with h
      · simp only [Option.some.injEq]
        exact ⟨fun he => ⟨h, he.symm⟩, fun he => he.2.symm⟩
      · exact ⟨fun he => absurd he (by simp), fun he => absurd he.1 h⟩
  · intro cfg st p
    cases p with
    | true =>
      simp only [reduceIte]
      show (if st.openIOZones < cfg.maxNrOpenIOZones then
          some ({ st with openIOZones := st.openIOZones + 1 } :
            ZonedBlockDevice) else none) = none ↔ _
      split_ifs with h
      · simp [h]
      · simp [h]
    | false =>
      simp only [Bool.false_eq_true, reduceIte]
      show (if st.openIOZones < cfg.maxNrOpenIOZones - 1 then
          some ({ st with openIOZones := st.openIOZones + 1 } :
            ZonedBlockDevice) else none) = none ↔ _
      split_ifs with h
      · simp [h]
      · simp [h]

/-! Helper lemmas: effect of each operation on the token counters. -/

theorem emit_counters {cfg : ZbdConfig} {st st' : ZonedBlockDevice}
    {zs : Nat} {r : Bool} (h : st.EmitLevelZone cfg zs = some (st', r)) :
    (st'.openIOZones = st.openIOZones ∧
      st'.activeIOZones = st.activeIOZones) ∨
    (st'.openIOZones = st.openIOZones - 1 ∧
      st'.activeIOZones = st.activeIOZones - 1) := by
  simp only [ZonedBlockDevice.EmitLevelZone] at h
  split at h
  · simp at h
  · rename_i z hz
    split_ifs at h with h1 h2
    split at h
    · simp at h
    · rename_i f hf
      simp only [Option.some.injEq, Prod.mk.injEq] at h
      left
      rw [← h.1]
      simp
    · simp only [Option.some.injEq, Prod.mk.injEq] at h
      right
      rw [← h.1]
      simp

theorem aft_counters {be : ZonedBlockDeviceBackend} {cfg : ZbdConfig}
    {st : ZonedBlockDevice} :
    (st.ApplyFinishThreshold be cfg).2.openIOZones = st.openIOZones := by
  simp only [ZonedBlockDevice.ApplyFinishThreshold]
  split
  · rfl
  · rfl

theorem ruiz_open {be : ZonedBlockDeviceBackend} {cfg : ZbdConfig} :
    ∀ {l : List Nat} {st st' : ZonedBlockDevice} {s : IOStat},
    resetUnusedGo be cfg l st = some (s, st') →
    st'.openIOZones ≤ st.openIOZones := by
  intro l
  induction l with
  | nil =>
    intro st st' s h
    simp only [resetUnusedGo, Option.some.injEq, Prod.mk.injEq] at h
    rw [← h.2]
  | cons a rest ih =>
    intro st st' s h
    simp only [resetUnusedGo] at h
    split at h
    · exact ih h
    · rename_i z hz
      by_cases hbusy : z.busy = true
      · rw [if_pos hbusy] at h
        exact ih h
      · rw [if_neg hbusy] at h
        by_cases hwork : (!z.IsEmpty && !z.IsUsed) = true
        · rw [if_pos hwork] at h
          split at h
          · rename_i z' hreset
            by_cases hfull : (!z.IsFull) = true
            · rw [if_pos hfull] at h
              by_cases hlvl :
                  (st.setZone z').IsLevelZone z.start = true
              · rw [if_pos hlvl] at h
                split at h
                · simp at h
                · rename_i st2 r hemit
                  have h1 := ih h
                  have h2 := emit_counters hemit
                  have h3 : (st.setZone z').openIOZones = st.openIOZones := by
                    simp
                  rcases h2 with ⟨h2a, _⟩ | ⟨h2a, _⟩ <;> omega
              · rw [if_neg hlvl] at h
                have h1 := ih h
                have h3 :
                    ((st.setZone z').PutActiveIOZoneToken).openIOZones =
                    st.openIOZones := by simp
                omega
            · rw [if_neg hfull] at h
              have h1 := ih h
              have h3 : (st.setZone z').openIOZones = st.openIOZones := by simp
              omega
          · rename_i s0 z' hreset
            simp only [Option.some.injEq, Prod.mk.injEq] at h
            rw [← h.2]
        · rw [if_neg hwork] at h
          exact ih h

theorem maintenance_open {be : ZonedBlockDeviceBackend} {cfg : ZbdConfig}
    {st st1 : ZonedBlockDevice} {s : IOStat}
    (h : maintenanceStep be cfg st = some (s, st1)) :
    st1.openIOZones ≤ st.openIOZones := by
  simp only [maintenanceStep] at h
  split at h
  · rename_i st0 haft
    have h1 : st0.openIOZones = st.openIOZones := by
      have := @aft_counters be cfg st
      rw [haft] at this
      exact this
    have h2 := ruiz_open h
    omega
  · rename_i s0 st0 hne haft
    simp only [Option.some.injEq, Prod.mk.injEq] at h
    have h1 : st0.openIOZones = st.openIOZones := by
      have := @aft_counters be cfg st
      rw [haft] at this
      exact this
    rw [← h.2]
    omega

theorem levelStage_open {cfg : ZbdConfig} {st st' : ZonedBlockDevice}
    {eff : Nat} {s : IOStat} {oz : Option Nat}
    (h : levelStage cfg st eff = some (s, st', oz))
    (hcap : st.openIOZones ≤ cfg.maxNrOpenIOZones) :
    st'.openIOZones ≤ cfg.maxNrOpenIOZones := by
  simp only [levelStage] at h
  split_ifs at h with h1 h2 h3 h4
  · split at h
    · simp at h
    · rename_i zid hpick
      split at h
      · simp at h
      · rename_i z hz
        simp only [Option.some.injEq, Prod.mk.injEq] at h
        rw [← h.2.1]
        simpa using hcap
  · split at h
    · simp at h
    · rename_i f hf
      simp only [Option.some.injEq, Prod.mk.injEq] at h
      rw [← h.2.1]
      simp
      omega

theorem alloc_open {be : ZonedBlockDeviceBackend} {cfg : ZbdConfig}
    {st st' : ZonedBlockDevice} {d : IOStat} {fl fid : Nat} {io : IOType}
    {s : IOStat} {oz : Option Nat}
    (h : st.AllocateIOZone be cfg d fl fid io = some (s, st', oz))
    (hcap : st.openIOZones ≤ cfg.maxNrOpenIOZones) :
    st'.openIOZones ≤ cfg.maxNrOpenIOZones := by
  simp only [ZonedBlockDevice.AllocateIOZone, GetZoneDeferredStatus] at h
  split_ifs at h with hd
  · simp only [Option.some.injEq, Prod.mk.injEq] at h
    rw [← h.2.1]
    exact hcap
  · simp only [allocateIOZoneRest] at h
    split at h
    · simp at h
    · rename_i s0 st1 hm
      split_ifs at h with hs0
      · simp only [Option.some.injEq, Prod.mk.injEq] at h
        rw [← h.2.1]
        split at hm
        · simp only [Option.some.injEq, Prod.mk.injEq] at hm
          rw [← hm.2]
          exact hcap
        · exact le_trans (maintenance_open hm) hcap
      · have hst1 : st1.openIOZones ≤ cfg.maxNrOpenIOZones := by
          split at hm
          · simp only [Option.some.injEq, Prod.mk.injEq] at hm
            rw [← hm.2]
            exact hcap
          · exact le_trans (maintenance_open hm) hcap
        exact levelStage_open h hst1

theorem wait_eq_some {cfg : ZbdConfig} {st st' : ZonedBlockDevice} {p : Bool}
    (h : st.WaitForOpenIOZoneToken cfg p = some st') :
    st.openIOZones <
      (if p then cfg.maxNrOpenIOZones else cfg.maxNrOpenIOZones - 1) ∧
    st' = { st with openIOZones := st.openIOZones + 1 } := by
  revert h
  show (if st.openIOZones <
      (if p then cfg.maxNrOpenIOZones else cfg.maxNrOpenIOZones - 1) then
    some ({ st with openIOZones := st.openIOZones + 1 } : ZonedBlockDevice)
    else none) = some st' → _
  intro h
  by_cases hg : st.openIOZones <
      (if p then cfg.maxNrOpenIOZones else cfg.maxNrOpenIOZones - 1)
  · rw [if_pos hg] at h
    simp only [Option.some.injEq] at h
    exact ⟨hg, h.symm⟩
  · rw [if_neg hg] at h
    simp at h

theorem mgrStep_token_caps {cfg : ZbdConfig} {st st' : ZonedBlockDevice}
    {op : MgrOp} (hop : op.isTokenOp = true) (hc : capsOk cfg st)
    (h : mgrStep cfg st op = some st') : capsOk cfg st' := by
  obtain ⟨hc1, hc2⟩ := hc
  cases op with
  | allocateIOZone be d fl fid io => simp [MgrOp.isTokenOp] at hop
  | initialLevelZones => simp [MgrOp.isTokenOp] at hop
  | emitLevelZone zs =>
    simp only [mgrStep, Option.map_eq_some'] at h
    obtain ⟨⟨st2, r⟩, hemit, hst⟩ := h
    have hst2 : st2 = st' := hst
    have h2 := emit_counters hemit
    rw [← hst2]
    rcases h2 with ⟨ha, hb⟩ | ⟨ha, hb⟩ <;> exact ⟨by omega, by omega⟩
  | waitForOpenIOZoneToken p =>
    simp only [mgrStep] at h
    have hlim : (if p then cfg.maxNrOpenIOZones
        else cfg.maxNrOpenIOZones - 1) ≤ cfg.maxNrOpenIOZones := by
      split <;> omega
    obtain ⟨hguard, hst⟩ := wait_eq_some h
    rw [hst]
    exact ⟨by simp; omega, by simpa using hc2⟩
  | getActiveIOZoneTokenIfAvailable =>
    simp only [mgrStep, ZonedBlockDevice.GetActiveIOZoneTokenIfAvailable] at h
    split at h
    · rename_i hguard
      simp only [Option.some.injEq] at h
      rw [← h]
      exact ⟨by simpa using hc1, by simp; omega⟩
    · simp only [Option.some.injEq] at h
      rw [← h]
      exact ⟨hc1, hc2⟩
  | putOpenIOZoneToken =>
    simp only [mgrStep, ZonedBlockDevice.PutOpenIOZoneToken,
      Option.some.injEq] at h
    rw [← h]
    exact ⟨by simp; omega, by simpa using hc2⟩
  | putActiveIOZoneToken =>
    simp only [mgrStep, ZonedBlockDevice.PutActiveIOZoneToken,
      Option.some.injEq] at h
    rw [← h]
    exact ⟨by simpa using hc1, by simp; omega⟩

theorem mgrStep_open {cfg : ZbdConfig} {st st' : ZonedBlockDevice}
    {op : MgrOp} (hop : op.isNotInit = true)
    (hc : st.openIOZones ≤ cfg.maxNrOpenIOZones)
    (h : mgrStep cfg st op = some st') :
    st'.openIOZones ≤ cfg.maxNrOpenIOZones := by
  cases op with
  | initialLevelZones => simp [MgrOp.isNotInit] at hop
  | allocateIOZone be d fl fid io =>
    simp only [mgrStep, Option.map_eq_some'] at h
    obtain ⟨⟨s, st2, oz⟩, halloc, hst⟩ := h
    have hst2 : st2 = st' := hst
    rw [← hst2]
    exact alloc_open halloc hc
  | emitLevelZone zs =>
    simp only [mgrStep, Option.map_eq_some'] at h
    obtain ⟨⟨st2, r⟩, hemit, hst⟩ := h
    have hst2 : st2 = st' := hst
    have h2 := emit_counters hemit
    rw [← hst2]
    rcases h2 with ⟨ha, _⟩ | ⟨ha, _⟩ <;> omega
  | waitForOpenIOZoneToken p =>
    simp only [mgrStep] at h
    have hlim : (if p then cfg.maxNrOpenIOZones
        else cfg.maxNrOpenIOZones - 1) ≤ cfg.maxNrOpenIOZones := by
      split <;> omega
    obtain ⟨hguard, hst⟩ := wait_eq_some h
    rw [hst]
    simp
    omega
  | getActiveIOZoneTokenIfAvailable =>
    simp only [mgrStep, ZonedBlockDevice.GetActiveIOZoneTokenIfAvailable] at h
    split at h <;> (simp only [Option.some.injEq] at h; rw [← h])
    · simpa using hc
    · exact hc
  | putOpenIOZoneToken =>
    simp only [mgrStep, ZonedBlockDevice.PutOpenIOZoneToken,
      Option.some.injEq] at h
    rw [← h]
    simp
    omega
  | putActiveIOZoneToken =>
    simp only [mgrStep, ZonedBlockDevice.PutActiveIOZoneToken,
      Option.some.injEq] at h
    rw [← h]
    simpa using hc

theorem mgrRun_token_caps {cfg : ZbdConfig} :
    ∀ {ops : List MgrOp} {st st' : ZonedBlockDevice},
    (∀ op ∈ ops, op.isTokenOp = true) → capsOk cfg st →
    mgrRun cfg st ops = some st' → capsOk cfg st' := by
  intro ops
  induction ops with
  | nil =>
    intro st st' _ hc h
    simp only [mgrRun, Option.some.injEq] at h
    rw [← h]
    exact hc
  | cons op rest ih =>
    intro st st' hops hc h
    simp only [mgrRun] at h
    split at h
    · simp at h
    · rename_i st1 hstep
      exact ih (fun o ho => hops o (List.mem_cons_of_mem op ho))
        (mgrStep_token_caps (hops op (List.mem_cons_self op rest)) hc hstep) h

theorem mgrRun_open {cfg : ZbdConfig} :
    ∀ {ops : List MgrOp} {st st' : ZonedBlockDevice},
    (∀ op ∈ ops, op.isNotInit = true) →
    st.openIOZones ≤ cfg.maxNrOpenIOZones →
    mgrRun cfg st ops = some st' →
    st'.openIOZones ≤ cfg.maxNrOpenIOZones := by
  intro ops
  induction ops with
  | nil =>
    intro st st' _ hc h
    simp only [mgrRun, Option.some.injEq] at h
    rw [← h]
    exact hc
  | cons op rest ih =>
    intro st st' hops hc h
    simp only [mgrRun] at h
    split at h
    · simp at h
    · rename_i st1 hstep
      exact ih (fun o ho => hops o (List.mem_cons_of_mem op ho))
        (mgrStep_open (hops op (List.mem_cons_self op rest)) hc hstep) h

/-- Counterexample to claim C1 as stated: from the state `cexSt`
satisfying both caps (`open = active = 0`, `max_open = 5`,
`max_active = 0`), the single operation `InitialLevelZones` drives
`active_io_zones` to `1 > max_nr_active_io_zones = 0` — it increments
both counters once per lifetime level with no cap check; likewise one
`AllocateIOZone` call that opens a new zone increments
`active_io_zones` past the cap, since only the open cap is checked on
that path. -/
theorem claim_C1_counterexample :
    capsOk cexCfg cexSt ∧
    mgrRun cexCfg cexSt [MgrOp.initialLevelZones] = some cexStAfterInit ∧
    ¬ capsOk cexCfg cexStAfterInit ∧
    mgrRun cexCfg cexSt
      [MgrOp.allocateIOZone cexBe IOStat.ok WLTH_MEDIUM 7 IOType.kWAL] =
      some cexStAfterAlloc ∧
    ¬ cexStAfterAlloc.activeIOZones ≤ cexCfg.maxNrActiveIOZones := by decide

/-- Claim C1, amended: the caps `open_io_zones ≤ max_nr_open_io_zones`
and `active_io_zones ≤ max_nr_active_io_zones` are preserved at every
observable point by every sequence of `WaitForOpenIOZoneToken`,
`GetActiveIOZoneTokenIfAvailable`, `PutOpenIOZoneToken`,
`PutActiveIOZoneToken` and `EmitLevelZone` operations; and the open
cap (only) is additionally preserved by `AllocateIOZone`.
`InitialLevelZones` and the new-zone path of `AllocateIOZone`
increment `active_io_zones` (and `InitialLevelZones` also
`open_io_zones`) without any cap check, so the invariant as originally
stated fails on them. -/
theorem claim_C1 :
    (∀ (cfg : ZbdConfig) (ops : List MgrOp) (st st' : ZonedBlockDevice),
      (∀ op ∈ ops, op.isTokenOp = true) → capsOk cfg st →
      mgrRun cfg st ops = some st' → capsOk cfg st') ∧
    (∀ (cfg : ZbdConfig) (ops : List MgrOp) (st st' : ZonedBlockDevice),
      (∀ op ∈ ops, op.isNotInit = true) →
      st.openIOZones ≤ cfg.maxNrOpenIOZones →
      mgrRun cfg st ops = some st' →
      st'.openIOZones ≤ cfg.maxNrOpenIOZones) := by
  constructor
  · intro cfg ops st st' hops hc h
    exact mgrRun_token_caps hops hc h
  · intro cfg ops st st' hops hc h
    exact mgrRun_open hops hc h

/-- Witness for claim C1 (amended), run on `cexSt`: a token-only trace
(wait, try-active, put-open) keeps both caps, and the single
`AllocateIOZone` trace keeps the open cap. -/
theorem claim_C1_witness :
    capsOk cexCfg { cexSt with openIOZones := 0 + 1 - 1 } ∧
    cexStAfterAlloc.openIOZones ≤ cexCfg.maxNrOpenIOZones := by
  constructor
  · exact claim_C1.1 cexCfg
      [MgrOp.waitForOpenIOZoneToken true,
       MgrOp.getActiveIOZoneTokenIfAvailable, MgrOp.putOpenIOZoneToken]
      cexSt { cexSt with openIOZones := 0 + 1 - 1 }
      (by decide) (by decide) (by decide)
  · exact claim_C1.2 cexCfg
      [MgrOp.allocateIOZone cexBe IOStat.ok WLTH_MEDIUM 7 IOType.kWAL]
      cexSt cexStAfterAlloc (by decide) (by decide) (by decide)

/-! Helper lemma: the finish-threshold traversal under an error-free
backend. -/

theorem aftGo_all_ok {be : ZonedBlockDeviceBackend} {zoneSize threshold : Nat} :
    ∀ {zs : List Zone} {active : Int},
    (∀ z ∈ zs, be.finishRes z.start = IOStat.ok) →
    applyFinishThresholdGo be zoneSize threshold zs active =
      (IOStat.ok,
       zs.map (fun z => if finishPred threshold z then
         { z with capacity := 0, wp := z.start + zoneSize } else z),
       active - (zs.countP (finishPred threshold) : Int)) := by
  intro zs
  induction zs with
  | nil =>
    intro active _
    simp [applyFinishThresholdGo]
  | cons z rest ih =>
    intro active hok
    have hz : be.finishRes z.start = IOStat.ok :=
      hok z (List.mem_cons_self z rest)
    have hrest : ∀ w ∈ rest, be.finishRes w.start = IOStat.ok :=
      fun w hw => hok w (List.mem_cons_of_mem z hw)
    by_cases hp : finishPred threshold z = true
    · simp only [applyFinishThresholdGo, hp, if_true, hz, Zone.Finish, ne_eq,
        not_true_eq_false, reduceIte, ih hrest, List.map_cons,
        List.countP_cons, hp]
      simp only [Prod.mk.injEq, true_and]
      omega
    · simp only [applyFinishThresholdGo, hp, Bool.false_eq_true, if_false,
        ih hrest, List.map_cons, List.countP_cons, hp]
      simp only [Prod.mk.injEq, true_and]
      omega

/-- Claim C7: with `finish_threshold == 0`, `ApplyFinishThreshold`
returns OK and changes nothing; with a positive threshold (and an
error-free backend) every zone it can acquire that is neither empty
nor full and whose `capacity < max_capacity * finish_threshold / 100`
is finished (`capacity` becomes 0, `wp` moves to `start + zone_size`)
with `active_io_zones` decremented once per finished zone, all other
zones left unchanged; and `AllocateIOZone` invokes this maintenance on
every non-WAL call — a non-OK status from it is returned as the
allocator's own result. -/
theorem claim_C7 :
    (∀ (be : ZonedBlockDeviceBackend) (cfg : ZbdConfig)
      (st : ZonedBlockDevice), cfg.finishThreshold = 0 →
      st.ApplyFinishThreshold be cfg = (IOStat.ok, st)) ∧
    (∀ (be : ZonedBlockDeviceBackend) (cfg : ZbdConfig)
      (st : ZonedBlockDevice), 0 < cfg.finishThreshold →
      (∀ z ∈ st.ioZones, be.finishRes z.start = IOStat.ok) →
      st.ApplyFinishThreshold be cfg =
        (IOStat.ok,
         { st with
           ioZones := st.ioZones.map (fun z =>
             if finishPred cfg.finishThreshold z then
               { z with capacity := 0, wp := z.start + cfg.zoneSize } else z),
           activeIOZones := st.activeIOZones -
             (st.ioZones.countP (finishPred cfg.finishThreshold) : Int) })) ∧
    (∀ (be : ZonedBlockDeviceBackend) (cfg : ZbdConfig)
      (st st1 : ZonedBlockDevice) (fl fid : Nat) (io : IOType) (s : IOStat),
      io ≠ IOType.kWAL → st.ApplyFinishThreshold be cfg = (s, st1) →
      s ≠ IOStat.ok →
      st.AllocateIOZone be cfg IOStat.ok fl fid io = some (s, st1, none)) := by
  refine ⟨?_, ?_, ?_⟩
  · intro be cfg st h
    simp [ZonedBlockDevice.ApplyFinishThreshold, h]
  · intro be cfg st hpos hok
    have hne : ¬ cfg.finishThreshold = 0 := by omega
    simp only [ZonedBlockDevice.ApplyFinishThreshold, hne, if_false,
      aftGo_all_ok hok, reduceIte]
  · intro be cfg st st1 fl fid io s hio haft hs
    have hio' : ¬ (io = IOType.kWAL) := hio
    simp only [ZonedBlockDevice.AllocateIOZone, GetZoneDeferredStatus, ne_eq,
      not_true_eq_false, if_false, reduceIte, allocateIOZoneRest, hio',
      maintenanceStep, haft]
    cases s with
    | ok => exact absurd rfl hs
    | noSpace => rfl
    | ioError e => rfl
    | corruption => rfl
    | notSupported => rfl
    | invalidArgument => rfl

/-- Witness for claim C7: threshold 0 leaves `wFinSt` untouched; with
threshold 20 and an error-free backend the 90-percent-written zone
`wFinZone` is finished and one active token refunded; with a failing
backend finish the allocator's non-WAL call returns that error. -/
theorem claim_C7_witness :
    wFinSt.ApplyFinishThreshold cexBe cexCfg = (IOStat.ok, wFinSt) ∧
    wFinSt.ApplyFinishThreshold cexBe wCfg20 =
      (IOStat.ok,
       { wFinSt with
         ioZones := [{ wFinZone with capacity := 0, wp := 0 + 100 }],
         activeIOZones := 1 - 1 }) ∧
    wFinSt.AllocateIOZone wBeFinErr wCfg20 IOStat.ok WLTH_MEDIUM 7
      IOType.kFlush = some (IOStat.ioError 5, wFinSt, none) := by
  refine ⟨?_, ?_, ?_⟩
  · exact claim_C7.1 cexBe cexCfg wFinSt (by decide)
  · have h := claim_C7.2.1 cexBe wCfg20 wFinSt (by decide) (by decide)
    rw [h]
    decide
  · exact claim_C7.2.2 wBeFinErr wCfg20 wFinSt wFinSt WLTH_MEDIUM 7
      IOType.kFlush (IOStat.ioError 5) (by decide) (by decide) (by decide)

/-! Helper lemma: the bucket stage returns a zone of bucket `level`. -/

theorem levelStage_mem {cfg : ZbdConfig} {st st' : ZonedBlockDevice}
    {eff : Nat} {s : IOStat} {zid : Nat}
    (h : levelStage cfg st eff = some (s, st', some zid)) :
    zid ∈ st'.levelZones.getD (eff - cfg.lifetimeBegin) [] := by
  simp only [levelStage] at h
  split_ifs at h with h1 h2 h3 h4
  · split at h
    · simp at h
    · rename_i zid' hpick
      split at h
      · simp at h
      · rename_i z hz
        simp only [Option.some.injEq, Prod.mk.injEq] at h
        obtain ⟨_, hst, hzid⟩ := h
        rw [← hst, ← hzid]
        simp only [setZone_levelZones, setLevelActive_levelZones]
        exact List.mem_of_find?_eq_some hpick
  · split at h
    · simp at h
    · rename_i f hf
      simp only [Option.some.injEq, Prod.mk.injEq] at h
      obtain ⟨_, hst, hzid⟩ := h
      rw [← hst, ← hzid]
      simp only [setBucket_levelZones, setZone_levelZones]
      rw [getD_set_self]
      · exact List.mem_cons_self f.start _
      · simp only [not_or] at h2
        omega

/-- Claim C3: `AllocateIOZone` rewrites a file lifetime hint that is
below `WLTH_SHORT` before choosing a bucket: for `file_id == 5` the
effective lifetime becomes `lifetime_begin_` (the lowest class), for
every other low-hint file it becomes class 8 (the highest class);
hints at or above `WLTH_SHORT` are used unchanged; and a zone returned
by `AllocateIOZone` is bound to bucket
`level = effective_lifetime - lifetime_begin_` (it is a member of
`level_zones[level]` in the resulting state). -/
theorem claim_C3 :
    (∀ (fl fid lb : Nat), fl < WLTH_SHORT → fid = 5 →
      rewriteFileLifetime fl fid lb = lb) ∧
    (∀ (fl fid lb : Nat), fl < WLTH_SHORT → fid ≠ 5 →
      rewriteFileLifetime fl fid lb = 8) ∧
    (∀ (fl fid lb : Nat), WLTH_SHORT ≤ fl →
      rewriteFileLifetime fl fid lb = fl) ∧
    (∀ (be : ZonedBlockDeviceBackend) (cfg : ZbdConfig)
      (st st' : ZonedBlockDevice) (d : IOStat) (fl fid : Nat) (io : IOType)
      (s : IOStat) (zid : Nat),
      st.AllocateIOZone be cfg d fl fid io = some (s, st', some zid) →
      zid ∈ st'.levelZones.getD
        (rewriteFileLifetime fl fid cfg.lifetimeBegin - cfg.lifetimeBegin) []) := by
  refine ⟨?_, ?_, ?_, ?_⟩
  · intro fl fid lb h1 h2
    simp [rewriteFileLifetime, h1, h2]
  · intro fl fid lb h1 h2
    simp [rewriteFileLifetime, h1, h2]
  · intro fl fid lb h1
    have : ¬ fl < WLTH_SHORT := by omega
    simp [rewriteFileLifetime, this]
  · intro be cfg st st' d fl fid io s zid h
    simp only [ZonedBlockDevice.AllocateIOZone, GetZoneDeferredStatus] at h
    split_ifs at h with hd
    · simp at h
    · simp only [allocateIOZoneRest] at h
      split at h
      · simp at h
      · rename_i s0 st1 hm
        split_ifs at h with hs0
        · simp at h
        · exact levelStage_mem h

/-- Witness for claim C3: the three rewrite rules at `lifetime_begin = 3`
(WAL file 5 with hint `NONE` goes to class 3, file 7 with hint
`NOT_SET` goes to class 8, hint `LONG = 4` stays), and a concrete WAL
allocation from `wAllocSt` returning the pre-seeded bucket-0 zone. -/
theorem claim_C3_witness :
    rewriteFileLifetime WLTH_NONE 5 3 = 3 ∧
    rewriteFileLifetime WLTH_NOT_SET 7 3 = 8 ∧
    rewriteFileLifetime 4 9 3 = 4 ∧
    (0 : Nat) ∈ (ZonedBlockDevice.mk
        [{ wFreshZ with
            start := 0, wp := 0, lifetime := 3, busy := true,
            useInLevelZone := true }] [[0]] [0] 1 1).levelZones.getD
      (rewriteFileLifetime WLTH_NONE 5 cexCfg.lifetimeBegin -
        cexCfg.lifetimeBegin) [] := by
  refine ⟨?_, ?_, ?_, ?_⟩
  · exact claim_C3.1 WLTH_NONE 5 3 (by decide) (by decide)
  · exact claim_C3.2.1 WLTH_NOT_SET 7 3 (by decide) (by decide)
  · exact claim_C3.2.2.1 4 9 3 (by decide)
  · exact claim_C3.2.2.2 cexBe cexCfg wAllocSt
      (ZonedBlockDevice.mk
        [{ wFreshZ with
            start := 0, wp := 0, lifetime := 3, busy := true,
            useInLevelZone := true }] [[0]] [0] 1 1)
      IOStat.ok WLTH_NONE 5 IOType.kWAL IOStat.ok 0 (by decide)

/-! Helper lemmas for `EmitLevelZone`. -/

@[simp]
theorem getZone_setBucket (st : ZonedBlockDevice) (i : Nat) (b : List Nat)
    (s : Nat) : (st.setBucket i b).getZone s = st.getZone s := rfl

@[simp]
theorem getZone_setLevelActive (st : ZonedBlockDevice) (i : Nat) (v : Int)
    (s : Nat) : (st.setLevelActive i v).getZone s = st.getZone s := rfl

theorem allocateEmptyZone_spec {zones : List Zone} {f : Zone}
    (h : ZonedBlockDevice.AllocateEmptyZone zones = some f) :
    f ∈ zones ∧ f.busy = false ∧ f.wp = f.start := by
  have h1 := List.mem_of_find?_eq_some h
  have h2 := List.find?_some h
  simp only [Bool.and_eq_true, Bool.not_eq_true', Zone.IsEmpty,
    decide_eq_true_eq] at h2
  exact ⟨h1, h2.1, h2.2⟩

theorem getZone_exists_of_mem {st : ZonedBlockDevice} {f : Zone}
    (h : f ∈ st.ioZones) : ∃ w, st.getZone f.start = some w := by
  have : (st.ioZones.find? (fun z => z.start == f.start)).isSome = true := by
    rw [List.find?_isSome]
    exact ⟨f, h, by simp⟩
  obtain ⟨w, hw⟩ := Option.isSome_iff_exists.mp this
  exact ⟨w, hw⟩

/-- Claim C6, amended: `EmitLevelZone(z)` removes `z` from the bucket
of `z`'s lifetime class and clears its lease (`useinlevelzone_`) and
busy flags; if the bucket is empty after the removal, a fresh empty
zone is allocated, given `z`'s lifetime, and inserted into the bucket
— with `z`'s open and active tokens not released — and otherwise
`open_io_zones` and `active_io_zones` are each decremented by one;
consequently every lifetime bucket that was non-empty before the call
is non-empty after it — all of this provided the emitted zone is not
itself re-selected by the replacement scan, which is guaranteed
whenever the emitted zone is non-empty (hypothesis `hne`): the
replacement comes from `AllocateEmptyZone`'s fresh scan of the whole
registry, and an empty emitted zone — just released, empty — can be
the zone that scan picks, in which case it is re-acquired and
re-inserted busy into the bucket (see the counterexample).  The other
hypotheses are the operation's structural preconditions: `z` is
registered, its lifetime class indexes an existing bucket, the bucket
and the registry starts are duplicate-free. -/
theorem claim_C6 (cfg : ZbdConfig) (st st' : ZonedBlockDevice) (zs : Nat)
    (z : Zone) (repl : Bool)
    (hz : st.getZone zs = some z)
    (hlb : cfg.lifetimeBegin ≤ z.lifetime)
    (hblen : z.lifetime - cfg.lifetimeBegin < st.levelZones.length)
    (hne : z.wp ≠ z.start)
    (hbnd : (st.levelZones.getD (z.lifetime - cfg.lifetimeBegin) []).Nodup)
    (hsn : (st.ioZones.map Zone.start).Nodup)
    (h : st.EmitLevelZone cfg zs = some (st', repl)) :
    zs ∉ st'.levelZones.getD (z.lifetime - cfg.lifetimeBegin) [] ∧
    st'.getZone zs = some { z with useInLevelZone := false, busy := false } ∧
    (repl = true ↔
      ((st.levelZones.getD (z.lifetime - cfg.lifetimeBegin) []).erase
        zs).isEmpty = true) ∧
    (repl = true →
      st'.openIOZones = st.openIOZones ∧
      st'.activeIOZones = st.activeIOZones ∧
      ∃ f ∈ st'.levelZones.getD (z.lifetime - cfg.lifetimeBegin) [],
        ∃ zf, st'.getZone f = some zf ∧ zf.lifetime = z.lifetime) ∧
    (repl = false →
      st'.openIOZones = st.openIOZones - 1 ∧
      st'.activeIOZones = st.activeIOZones - 1) ∧
    (∀ i, i < st.levelZones.length → st.levelZones.getD i [] ≠ [] →
      st'.levelZones.getD i [] ≠ []) := by
  have hzstart : z.start = zs := start_eq_of_getZone hz
  simp only [ZonedBlockDevice.EmitLevelZone] at h
  split at h
  · rename_i heq
    rw [hz] at heq
    exact absurd heq (by simp)
  · rename_i z0 heq
    rw [hz] at heq
    have hz0 : z0 = z := by
      injection heq with heq2
      exact heq2.symm
    rw [hz0] at h
    rw [if_neg (show ¬ z.lifetime < cfg.lifetimeBegin by omega)] at h
    rw [if_neg (show
      ¬ st.levelZones.length ≤ z.lifetime - cfg.lifetimeBegin by omega)] at h
    set b := z.lifetime - cfg.lifetimeBegin with hb
    set bucket' := (st.levelZones.getD b []).erase zs with hbucket
    set zUnb : Zone := { z with useInLevelZone := false, busy := false }
      with hzUnb
    set st1 := (st.setBucket b bucket').setZone zUnb with hst1
    have hst1zs : st1.getZone zs = some zUnb := by
      rw [hst1]
      exact getZone_setZone_self zUnb hzstart hz
    have hst1zones : st1.levelZones = st.levelZones.set b bucket' := by
      rw [hst1]
      simp
    have hzs_not_mem : zs ∉ bucket' := by
      intro hmem
      rw [hbucket] at hmem
      rw [List.Nodup.mem_erase_iff hbnd] at hmem
      exact hmem.1 rfl
    by_cases hemp : bucket'.isEmpty = true
    · rw [if_pos hemp] at h
      split at h
      · simp at h
      · rename_i f hf
        simp only [Option.some.injEq, Prod.mk.injEq] at h
        obtain ⟨hst, hrepl⟩ := h
        obtain ⟨hfmem, hfbusy, hfempty⟩ := allocateEmptyZone_spec hf
        have hfne : f.start ≠ zs := by
          intro hfzs
          have hmemU : zUnb ∈ st1.ioZones := mem_of_getZone hst1zs
          have hnodup1 : (st1.ioZones.map Zone.start).Nodup := by
            rw [hst1]
            rw [map_start_setZone]
            simpa using hsn
          have : f = zUnb := mem_eq_of_start_nodup hnodup1 hfmem hmemU
            (by rw [hfzs, hzUnb]; exact hzstart.symm)
          rw [this] at hfempty
          exact hne (by simpa [hzUnb] using hfempty)
        have hst'zones :
            st'.levelZones = st1.levelZones.set b (f.start :: bucket') := by
          rw [← hst]
          simp
        have hst'getD :
            st'.levelZones.getD b [] = f.start :: bucket' := by
          rw [hst'zones, hst1zones]
          rw [getD_set_self]
          simpa using hblen
        refine ⟨?_, ?_, ?_, ?_, ?_, ?_⟩
        · rw [hst'getD]
          intro hmem
          rcases List.mem_cons.mp hmem with hh | hh
          · exact hfne hh.symm
          · exact hzs_not_mem hh
        · rw [← hst]
          show ((st1.setZone
            { f with busy := true, lifetime := z.lifetime }).setBucket b
            (f.start :: bucket')).getZone zs = some zUnb
          rw [getZone_setBucket]
          rw [getZone_setZone_ne { f with busy := true, lifetime := z.lifetime }
            (show ({ f with busy := true, lifetime := z.lifetime } : Zone).start ≠ zs
              from hfne)]
          exact hst1zs
        · rw [← hrepl]
          simp [hemp]
        · intro _
          refine ⟨?_, ?_, ?_⟩
          · rw [← hst, hst1]; simp
          · rw [← hst, hst1]; simp
          · refine ⟨f.start, ?_, ?_⟩
            · rw [hst'getD]
              exact List.mem_cons_self f.start bucket'
            · obtain ⟨w, hw⟩ := getZone_exists_of_mem hfmem
              refine ⟨{ f with busy := true, lifetime := z.lifetime }, ?_, rfl⟩
              rw [← hst]
              show ((st1.setZone
                { f with busy := true, lifetime := z.lifetime }).setBucket b
                (f.start :: bucket')).getZone f.start = _
              rw [getZone_setBucket]
              exact getZone_setZone_self _ rfl hw
        · intro hcontra
          rw [hcontra] at hrepl
          exact absurd hrepl (by simp)
        · intro i hi hne'
          by_cases hib : i = b
          · rw [hib, hst'getD]
            simp
          · rw [hst'zones, hst1zones]
            rw [getD_set_ne _ _ _ _ _ (fun hh => hib hh.symm)]
            rw [getD_set_ne _ _ _ _ _ (fun hh => hib hh.symm)]
            exact hne'
    · rw [if_neg hemp] at h
      simp only [Option.some.injEq, Prod.mk.injEq] at h
      obtain ⟨hst, hrepl⟩ := h
      have hbne : bucket' ≠ [] := by
        intro hh
        rw [hh] at hemp
        exact hemp rfl
      have hst'zones : st'.levelZones = st.levelZones.set b bucket' := by
        rw [← hst]
        simpa using hst1zones
      have hst'getD : st'.levelZones.getD b [] = bucket' := by
        rw [hst'zones]
        rw [getD_set_self]
        exact hblen
      refine ⟨?_, ?_, ?_, ?_, ?_, ?_⟩
      · rw [hst'getD]
        exact hzs_not_mem
      · rw [← hst]
        show st1.getZone zs = some zUnb
        exact hst1zs
      · rw [← hrepl]
        simp only [Bool.false_eq_true, false_iff]
        exact hemp
      · intro hcontra
        rw [hcontra] at hrepl
        exact absurd hrepl (by simp)
      · intro _
        constructor
        · rw [← hst]
          show st1.openIOZones - 1 = st.openIOZones - 1
          rw [hst1]
          simp
        · rw [← hst]
          show st1.activeIOZones - 1 = st.activeIOZones - 1
          rw [hst1]
          simp
      · intro i hi hne'
        by_cases hib : i = b
        · rw [hib, hst'getD]
          exact hbne
        · rw [hst'zones]
          rw [getD_set_ne _ _ _ _ _ (fun hh => hib hh.symm)]
          exact hne'

/-- Witness for claim C6: emitting zone 5 (lifetime 3, bucket 0) from
`wEmitSt` empties its bucket, so the fresh empty zone 200 is acquired,
given lifetime 3 and inserted, with the token counters untouched. -/
theorem claim_C6_witness :
    (5 : Nat) ∉ (ZonedBlockDevice.mk
      [{ wEmitZ with busy := false, useInLevelZone := false },
       { wFreshZ with lifetime := 3, busy := true }]
      [[200]] [0] 1 1).levelZones.getD (wEmitZ.lifetime - cexCfg.lifetimeBegin)
      [] ∧
    (ZonedBlockDevice.mk
      [{ wEmitZ with busy := false, useInLevelZone := false },
       { wFreshZ with lifetime := 3, busy := true }]
      [[200]] [0] 1 1).getZone 5 =
      some { wEmitZ with useInLevelZone := false, busy := false } ∧
    (ZonedBlockDevice.mk
      [{ wEmitZ with busy := false, useInLevelZone := false },
       { wFreshZ with lifetime := 3, busy := true }]
      [[200]] [0] 1 1).openIOZones = wEmitSt.openIOZones ∧
    (∃ f ∈ (ZonedBlockDevice.mk
      [{ wEmitZ with busy := false, useInLevelZone := false },
       { wFreshZ with lifetime := 3, busy := true }]
      [[200]] [0] 1 1).levelZones.getD
        (wEmitZ.lifetime - cexCfg.lifetimeBegin) [],
      ∃ zf, (ZonedBlockDevice.mk
        [{ wEmitZ with busy := false, useInLevelZone := false },
         { wFreshZ with lifetime := 3, busy := true }]
        [[200]] [0] 1 1).getZone f = some zf ∧ zf.lifetime = wEmitZ.lifetime) := by
  have h := claim_C6 cexCfg wEmitSt
    (ZonedBlockDevice.mk
      [{ wEmitZ with busy := false, useInLevelZone := false },
       { wFreshZ with lifetime := 3, busy := true }]
      [[200]] [0] 1 1)
    5 wEmitZ true (by decide) (by decide) (by decide) (by decide) (by decide)
    (by decide) (by decide)
  exact ⟨h.1, h.2.1, (h.2.2.2.1 rfl).1, (h.2.2.2.1 rfl).2.2⟩

/-! Helper lemma: a full case analysis of  `AllocateMetaZone`. -/

theorem allocateMetaZone_spec (be : ZonedBlockDeviceBackend) :
    ∀ zs : List Zone,
    ((∀ z ∈ zs, metaSkip be z = true) ∧
      (AllocateMetaZone be zs).1 = IOStat.noSpace ∧
      (AllocateMetaZone be zs).2.1 = none) ∨
    ((¬ ∀ z ∈ zs, metaSkip be z = true) ∧
      (AllocateMetaZone be zs).1 = IOStat.ok ∧
      ∃ z', (AllocateMetaZone be zs).2.1 = some z' ∧ z'.busy = true ∧
        z'.usedCapacity = 0 ∧ z'.wp = z'.start) := by
  intro zs
  induction zs with
  | nil =>
    left
    refine ⟨by simp, rfl, rfl⟩
  | cons z rest ih =>
    by_cases hbusy : z.busy = true
    · have hred : AllocateMetaZone be (z :: rest) =
          ((AllocateMetaZone be rest).1, (AllocateMetaZone be rest).2.1,
            z :: (AllocateMetaZone be rest).2.2) := by
        simp [AllocateMetaZone, hbusy]
      have hskip : metaSkip be z = true := by simp [metaSkip, hbusy]
      rcases ih with ⟨ha, hb, hc⟩ | ⟨ha, hb, hc⟩
      · left
        refine ⟨?_, by rw [hred]; exact hb, by rw [hred]; exact hc⟩
        intro w hw
        rcases List.mem_cons.mp hw with rfl | hw2
        · exact hskip
        · exact ha w hw2
      · right
        refine ⟨?_, by rw [hred]; exact hb, ?_⟩
        · intro hall
          exact ha (fun w hw => hall w (List.mem_cons_of_mem z hw))
        · obtain ⟨z', hz1, hz2⟩ := hc
          exact ⟨z', by rw [hred]; exact hz1, hz2⟩
    · by_cases hused : z.IsUsed = true
      · have hred : AllocateMetaZone be (z :: rest) =
            ((AllocateMetaZone be rest).1, (AllocateMetaZone be rest).2.1,
              { z with busy := true } :: (AllocateMetaZone be rest).2.2) := by
          simp [AllocateMetaZone, hbusy, hused]
        have hskip : metaSkip be z = true := by simp [metaSkip, hused]
        rcases ih with ⟨ha, hb, hc⟩ | ⟨ha, hb, hc⟩
        · left
          refine ⟨?_, by rw [hred]; exact hb, by rw [hred]; exact hc⟩
          intro w hw
          rcases List.mem_cons.mp hw with rfl | hw2
          · exact hskip
          · exact ha w hw2
        · right
          refine ⟨?_, by rw [hred]; exact hb, ?_⟩
          · intro hall
            exact ha (fun w hw => hall w (List.mem_cons_of_mem z hw))
          · obtain ⟨z', hz1, hz2⟩ := hc
            exact ⟨z', by rw [hred]; exact hz1, hz2⟩
      · have hu0 : z.usedCapacity = 0 := by
          simp only [Zone.IsUsed, decide_eq_true_eq] at hused
          omega
        by_cases hempty : z.IsEmpty = true
        · have hwp : z.wp = z.start := by
            simpa [Zone.IsEmpty] using hempty
          have hred : AllocateMetaZone be (z :: rest) =
              (IOStat.ok, some { z with busy := true },
                { z with busy := true } :: rest) := by
            simp [AllocateMetaZone, hbusy, hused, hempty]
          right
          refine ⟨?_, by rw [hred], ?_⟩
          · intro hall
            have := hall z (List.mem_cons_self z rest)
            simp [metaSkip, hbusy, hused, hempty] at this
          · exact ⟨{ z with busy := true }, by rw [hred], rfl, hu0, hwp⟩
        · rcases hrr : be.resetRes z.start with ⟨rs, roff, rmc⟩
          by_cases hrs : rs = IOStat.ok
          · subst hrs
            have hzr : Zone.Reset { z with busy := true } IOStat.ok roff rmc =
                (IOStat.ok, (Zone.Reset { z with busy := true }
                  IOStat.ok roff rmc).2) := by
              cases roff <;> simp [Zone.Reset]
            have hprops : (Zone.Reset { z with busy := true }
                IOStat.ok roff rmc).2.busy = true ∧
                (Zone.Reset { z with busy := true }
                  IOStat.ok roff rmc).2.usedCapacity = 0 ∧
                (Zone.Reset { z with busy := true }
                  IOStat.ok roff rmc).2.wp =
                (Zone.Reset { z with busy := true }
                  IOStat.ok roff rmc).2.start := by
              cases roff <;> simp [Zone.Reset, hu0]
            have hred : AllocateMetaZone be (z :: rest) =
                (IOStat.ok,
                 some (Zone.Reset { z with busy := true } IOStat.ok roff rmc).2,
                 (Zone.Reset { z with busy := true } IOStat.ok roff rmc).2 ::
                   rest) := by
              cases roff <;>
                simp [AllocateMetaZone, hbusy, hused, hempty, hrr, Zone.Reset]
            right
            refine ⟨?_, by rw [hred], ?_⟩
            · intro hall
              have := hall z (List.mem_cons_self z rest)
              simp [metaSkip, hbusy, hused, hempty, hrr] at this
            · exact ⟨(Zone.Reset { z with busy := true } IOStat.ok roff rmc).2,
                by rw [hred], hprops.1, hprops.2.1, hprops.2.2⟩
          · have hskip : metaSkip be z = true := by
              simp [metaSkip, hrr, hempty, hrs]
            have hred : AllocateMetaZone be (z :: rest) =
                ((AllocateMetaZone be rest).1, (AllocateMetaZone be rest).2.1,
                  { z with busy := false } ::
                    (AllocateMetaZone be rest).2.2) := by
              cases rs with
              | ok => exact absurd rfl hrs
              | noSpace =>
                simp [AllocateMetaZone, hbusy, hused, hempty, hrr, Zone.Reset]
              | ioError e =>
                simp [AllocateMetaZone, hbusy, hused, hempty, hrr, Zone.Reset]
              | corruption =>
                simp [AllocateMetaZone, hbusy, hused, hempty, hrr, Zone.Reset]
              | notSupported =>
                simp [AllocateMetaZone, hbusy, hused, hempty, hrr, Zone.Reset]
              | invalidArgument =>
                simp [AllocateMetaZone, hbusy, hused, hempty, hrr, Zone.Reset]
            rcases ih with ⟨ha, hb, hc⟩ | ⟨ha, hb, hc⟩
            · left
              refine ⟨?_, by rw [hred]; exact hb, by rw [hred]; exact hc⟩
              intro w hw
              rcases List.mem_cons.mp hw with rfl | hw2
              · exact hskip
              · exact ha w hw2
            · right
              refine ⟨?_, by rw [hred]; exact hb, ?_⟩
              · intro hall
                exact ha (fun w hw => hall w (List.mem_cons_of_mem z hw))
              · obtain ⟨z', hz1, hz2⟩ := hc
                exact ⟨z', by rw [hred]; exact hz1, hz2⟩

/-- Counterexample to claim C8 as stated: a meta zone that is unused
(`used_capacity = 0`) but busy (its `Acquire` fails) is skipped by the
scan, so `AllocateMetaZone` returns `NoSpace` even though not every
meta zone `IsUsed`. -/
theorem claim_C8_counterexample :
    (AllocateMetaZone cexBe [wZoneA]).1 = IOStat.noSpace ∧
    ¬ (∀ z ∈ [wZoneA], z.IsUsed = true) := by decide

/-- Claim C8, amended: `AllocateMetaZone` returns `NoSpace` iff every
meta zone is skipped — is busy, or `IsUsed`, or is non-empty with a
failing backend reset (with all meta zones acquirable and resets
succeeding this reduces to: iff every meta zone `IsUsed`); otherwise
it returns OK together with a zone that is unused, has its busy flag
set, and is empty — it was reset first when non-empty. -/
theorem claim_C8 :
    (∀ (be : ZonedBlockDeviceBackend) (zs : List Zone),
      (AllocateMetaZone be zs).1 = IOStat.noSpace ↔
        ∀ z ∈ zs, metaSkip be z = true) ∧
    (∀ (be : ZonedBlockDeviceBackend) (zs : List Zone),
      (¬ ∀ z ∈ zs, metaSkip be z = true) →
      (AllocateMetaZone be zs).1 = IOStat.ok ∧
      ∃ z', (AllocateMetaZone be zs).2.1 = some z' ∧ z'.busy = true ∧
        z'.usedCapacity = 0 ∧ z'.wp = z'.start) := by
  constructor
  · intro be zs
    rcases allocateMetaZone_spec be zs with ⟨ha, hb, _⟩ | ⟨ha, hb, _⟩
    · exact ⟨fun _ => ha, fun _ => hb⟩
    · constructor
      · intro hns
        rw [hb] at hns
        exact absurd hns (by simp)
      · intro hall
        exact absurd hall ha
  · intro be zs hn
    rcases allocateMetaZone_spec be zs with ⟨ha, _, _⟩ | ⟨_, hb, hc⟩
    · exact absurd ha hn
    · exact ⟨hb, hc⟩

/-- Witness for claim C8 (amended) on `wMetaZones` (a used zone
followed by an acquirable unused non-empty zone, error-free backend):
the scan returns OK with a busy, unused, freshly reset (hence empty)
zone. -/
theorem claim_C8_witness :
    (AllocateMetaZone cexBe wMetaZones).1 = IOStat.ok ∧
    ∃ z', (AllocateMetaZone cexBe wMetaZones).2.1 = some z' ∧
      z'.busy = true ∧ z'.usedCapacity = 0 ∧ z'.wp = z'.start :=
  claim_C8.2 cexBe wMetaZones (by decide)

/-- Counterexample to claim C6 as stated: emitting the *empty* zone 5
(`wp = start = 5`, the state of `EmitLevelZone`'s sole call site,
right after a successful `Reset`) from a state where it is the only
bucket entry and the only empty zone.  Its bucket drains, the
replacement scan re-selects zone 5 itself — just released and empty —
re-acquires it and re-inserts it: after the call zone 5 is still in
the bucket of its lifetime class and its busy flag is set, so
"removes z from the bucket" and "clears its busy flag" are both
false. -/
theorem claim_C6_counterexample :
    (ZonedBlockDevice.mk [{ wEmitZ with wp := 5 }] [[5]] [0] 1 1).EmitLevelZone
        cexCfg 5 =
      some (ZonedBlockDevice.mk
        [{ wEmitZ with wp := 5, busy := true, useInLevelZone := false }]
        [[5]] [0] 1 1, true) ∧
    (5 : Nat) ∈ (ZonedBlockDevice.mk
        [{ wEmitZ with wp := 5, busy := true, useInLevelZone := false }]
        [[5]] [0] 1 1).levelZones.getD
      (({ wEmitZ with wp := 5 } : Zone).lifetime - cexCfg.lifetimeBegin) [] ∧
    ((ZonedBlockDevice.mk
        [{ wEmitZ with wp := 5, busy := true, useInLevelZone := false }]
        [[5]] [0] 1 1).getZone 5).map Zone.busy = some true := by decide
